import Mathlib

/-!
Verification development for the order-book matching engine described by this
repository.  The repository ships only the engine's test harness
(`tests/harness.rs`) and thin CLI wrappers (`spark-cli`); the engine contract
itself is not part of the sources, so every definition below is modelled from
the specification (`spec.md`) and checked against the behaviour asserted by the
test harness.
-/

namespace Orderbook

/-- Modelled from the spec (§3 SignedAmount, harness `I64 { value, negative }`):
a fixed-width signed magnitude; the sign encodes the order side
(negative = sell, positive = buy). -/
structure SignedAmount where
  magnitude : Nat
  negative : Bool
  deriving DecidableEq, Repr

/-- Modelled from the spec (§4.3): order side, `Buy` if `base_size` is
positive else `Sell`. -/
inductive OrderType where
  | Buy
  | Sell
  deriving DecidableEq, Repr

/-- Modelled from the spec (§4.3) and `spark-cli/src/commands/info/order_id.rs`:
a discriminated account identity, either an externally-owned address or a
contract id, each carrying its underlying bytes (abstracted as a `Nat`). -/
inductive Identity where
  | Address (bits : Nat)
  | ContractId (bits : Nat)
  deriving DecidableEq, Repr

/-- Modelled from the spec (§4.3): side tag entering the order-id hash. -/
def typeCode : OrderType → Nat
  | .Buy => 0
  | .Sell => 1

/-- Modelled from the spec (§4.3, §9): the discriminated encoding of an
identity; the discriminant is part of the encoding so the two identity kinds
never collide. -/
def encodeIdentity : Identity → Nat
  | .Address a => Nat.pair 0 a
  | .ContractId c => Nat.pair 1 c

/-- Modelled from the spec (§4.3, §9):
`id = Hash256(order_type ∥ owner ∥ base_price ∥ block_height ∥ order_height)`.
The spec demands a collision-resistant hash over a canonical encoding whose
equal inputs always yield equal ids; the shallow embedding realises the hash
as an injective pairing of the hashed fields. -/
def order_id (t : OrderType) (owner : Identity) (price : Nat)
    (blockHeight : Nat) (orderHeight : Nat) : Nat :=
  Nat.pair (typeCode t)
    (Nat.pair (encodeIdentity owner) (Nat.pair price (Nat.pair blockHeight orderHeight)))

/-- Modelled from the spec (§4.3): the side of a submitted size, `Buy` when the
size is positive (not negative), `Sell` otherwise. -/
def orderTypeOf (s : SignedAmount) : OrderType :=
  if s.negative then .Sell else .Buy

/-- Modelled from the spec (§3 Order): a stored order.  The market's base
asset is recorded on the order so that later operations (cancel, match) can
recover which asset backs it. -/
structure Order where
  id : Nat
  base_asset : Nat
  owner : Identity
  base_price : Nat
  base_size : SignedAmount
  block_height : Nat
  order_height : Nat
  deriving DecidableEq, Repr

/-- Modelled from the spec (§3 Market, §6 config): process-wide immutable
configuration fixed at deploy time. -/
structure Config where
  quoteAsset : Nat
  quoteDecimals : Nat
  priceDecimals : Nat
  deriving DecidableEq, Repr

/-- Modelled from the spec (§7): the error taxonomy.  `ZeroSize` guards the
spec's storage invariant that a stored order always has positive magnitude
(§3); `Overflow` is listed by the spec for fixed-width arithmetic and is
unused here because the embedding computes over `Nat`. -/
inductive EngineError where
  | UnknownMarket
  | OrderNotFound
  | NotOwner
  | InsufficientBalance
  | IncompatibleMarket
  | SameSide
  | Overflow
  | ZeroSize
  deriving DecidableEq, Repr

/-- Modelled from the spec (§2, §3, §6): the combined engine state.
`wallet` is the callers' external balances (funds outside the engine),
`escrow` the free escrow-ledger balances, `held` the escrow pool backing
resting orders, per owner and asset.  `deposited` / `withdrawn` accumulate,
per asset, every unit that ever entered the engine (explicit deposits and
funds attached to `open_order` calls) and every unit the engine ever released
to an external balance (withdrawals, cancel refunds, match settlements). -/
structure State where
  config : Config
  markets : List (Nat × Nat)
  orders : List Order
  index : Identity → List Nat
  wallet : Identity → Nat → Nat
  escrow : Identity → Nat → Nat
  held : Identity → Nat → Nat
  deposited : Nat → Nat
  withdrawn : Nat → Nat

/-- Pointwise increment of a two-key balance table. -/
def addAt (f : Identity → Nat → Nat) (i : Identity) (a : Nat) (d : Nat) :
    Identity → Nat → Nat :=
  fun j b => if j = i ∧ b = a then f j b + d else f j b

/-- Pointwise (checked by callers) decrement of a two-key balance table. -/
def subAt (f : Identity → Nat → Nat) (i : Identity) (a : Nat) (d : Nat) :
    Identity → Nat → Nat :=
  fun j b => if j = i ∧ b = a then f j b - d else f j b

/-- Pointwise increment of a per-asset counter. -/
def bump (g : Nat → Nat) (a : Nat) (d : Nat) : Nat → Nat :=
  fun b => if b = a then g b + d else g b

/-- Modelled from the spec (§6): `order_by_id`. -/
def order_by_id (st : State) (oid : Nat) : Option Order :=
  st.orders.find? (fun o => o.id = oid)

/-- Modelled from the spec (§6): `orders_by_trader`, the trader index in
insertion order. -/
def orders_by_trader (st : State) (i : Identity) : List Nat :=
  st.index i

/-- Modelled from the spec (§6): `market_exists`. -/
def market_exists (st : State) (asset : Nat) : Bool :=
  st.markets.any (fun m => m.1 = asset)

/-- Modelled from the spec (§4.3 open_order step 2): the asset an order of the
given size on the given market must escrow — the base asset for a sell, the
quote asset for a buy. -/
def requiredAsset (cfg : Config) (baseAsset : Nat) (size : SignedAmount) : Nat :=
  if size.negative then baseAsset else cfg.quoteAsset

/-- Modelled from the spec (§4.3 open_order step 2): the amount an order of
the given size and price must escrow — the magnitude for a sell,
`magnitude * base_price / 10^PRICE_DECIMALS` (truncating) for a buy. -/
def requiredAmount (cfg : Config) (size : SignedAmount) (price : Nat) : Nat :=
  if size.negative then size.magnitude
  else size.magnitude * price / 10 ^ cfg.priceDecimals

/-- Modelled from the spec (§4.2 deposit, §6 attached funds): crediting the
escrow ledger with funds attached by the caller; fails if the caller's
external balance cannot cover the attachment. -/
def deposit (st : State) (caller : Identity) (asset amt : Nat) :
    Except EngineError State :=
  if amt ≤ st.wallet caller asset then
    .ok { st with
      wallet := subAt st.wallet caller asset amt
      escrow := addAt st.escrow caller asset amt
      deposited := bump st.deposited asset amt }
  else .error .InsufficientBalance

/-- Modelled from the spec (§4.2 withdraw): fails with `InsufficientBalance`
if the amount exceeds the entry, otherwise decrements it and releases the
amount to the caller's external balance. -/
def withdraw (st : State) (caller : Identity) (asset amt : Nat) :
    Except EngineError State :=
  if amt ≤ st.escrow caller asset then
    .ok { st with
      escrow := subAt st.escrow caller asset amt
      wallet := addAt st.wallet caller asset amt
      withdrawn := bump st.withdrawn asset amt }
  else .error .InsufficientBalance

/-- Modelled from the spec (§4.3 match step 5-6): move the settlement
quantity of the base asset from the seller's order escrow to the buyer's
external balance and `quantity * trade_price / 10^PRICE_DECIMALS` (truncating)
of the quote asset from the buyer's order escrow to the seller's external
balance, failing atomically with `InsufficientBalance` on an escrow
shortfall. -/
def settle (st : State) (sellerO buyerO : Identity) (baseAsset q price : Nat) :
    Except EngineError State :=
  if q ≤ st.held sellerO baseAsset then
    if q * price / 10 ^ st.config.priceDecimals ≤
        subAt st.held sellerO baseAsset q buyerO st.config.quoteAsset then
      .ok { st with
        held := subAt (subAt st.held sellerO baseAsset q) buyerO
          st.config.quoteAsset (q * price / 10 ^ st.config.priceDecimals)
        wallet := addAt (addAt st.wallet buyerO baseAsset q)
          sellerO st.config.quoteAsset (q * price / 10 ^ st.config.priceDecimals)
        withdrawn := bump (bump st.withdrawn baseAsset q)
          st.config.quoteAsset (q * price / 10 ^ st.config.priceDecimals) }
    else .error .InsufficientBalance
  else .error .InsufficientBalance

/-- Modelled from the spec (§4.3 match step 7): reduce a matched order's
remaining magnitude by the settlement quantity, removing it from storage and
from its trader's index when the magnitude reaches zero. -/
def applyFill (st : State) (o : Order) (q : Nat) : State :=
  if o.base_size.magnitude ≤ q then
    { st with
      orders := st.orders.filter (fun p => p.id ≠ o.id)
      index := fun j => if j = o.owner then (st.index j).filter (fun x => x ≠ o.id)
        else st.index j }
  else
    { st with
      orders := st.orders.map (fun p =>
        if p.id = o.id then
          { p with base_size := { p.base_size with
              magnitude := p.base_size.magnitude - q } }
        else p) }

/-- Modelled from the spec (§4.3 match step 4): the trade executes at the
maker's price, the price of whichever order was opened first by
block-height/order-height ordering (the first argument on a tie). -/
def tradePrice (a b : Order) : Nat :=
  if b.block_height < a.block_height ∨
      (b.block_height = a.block_height ∧ b.order_height < a.order_height) then
    b.base_price
  else a.base_price

/-- Modelled from the spec (§9 open question, harness
`open_quote_token_order_cancel_by_reverse_order_test`): the resting order of
the caller that an incoming submission nets against — the first entry of the
caller's index referencing a stored order on the same market at the same
price with the opposite sign. -/
def findCounter (st : State) (caller : Identity) (baseAsset price : Nat)
    (neg : Bool) : Option Order :=
  (st.index caller).findSome? (fun oid =>
    match order_by_id st oid with
    | some o =>
      if o.base_asset = baseAsset ∧ o.base_price = price ∧
          o.base_size.negative ≠ neg then some o else none
    | none => none)

/-- Modelled from the spec (§4.2 hold, §4.3 open_order side effect): the
implicit deposit-then-hold of the funds attached to an `open_order` call —
exactly the required amount moves from the caller's external balance into the
escrow pool backing orders, and is recorded as deposited. -/
def attach (st : State) (caller : Identity) (rAsset rAmt : Nat) : State :=
  { st with
    wallet := subAt st.wallet caller rAsset rAmt
    held := addAt st.held caller rAsset rAmt
    deposited := bump st.deposited rAsset rAmt }

/-- Modelled from the spec (§4.3 open_order step 4): merging an incoming
submission into the stored order carrying the same derived id — the stored
magnitude grows by the incoming magnitude, everything else is unchanged. -/
def openMerge (st1 : State) (oid : Nat) (size : SignedAmount) : State :=
  { st1 with
    orders := st1.orders.map (fun p =>
      if p.id = oid then
        { p with base_size := { p.base_size with
            magnitude := p.base_size.magnitude + size.magnitude } }
      else p) }

/-- Modelled from the spec (§4.3 open_order step 5): inserting a fresh order
and appending its id to the trader's index. -/
def openInsert (st1 : State) (caller : Identity) (baseAsset : Nat)
    (size : SignedAmount) (price oid blockHeight orderHeight : Nat) : State :=
  { st1 with
    orders := st1.orders ++
      [⟨oid, baseAsset, caller, price, size, blockHeight, orderHeight⟩]
    index := fun j => if j = caller then st1.index j ++ [oid] else st1.index j }

/-- Modelled from the spec (§9 open question, harness reverse-order test):
netting an incoming submission against the caller's opposite-signed resting
order `rest` at the same price — settle `q` (the smaller magnitude) at that
price, fill the resting order, and store the incoming residual (with the
incoming sign and id) only when the incoming magnitude exceeds `q`. -/
def openNet (st1 : State) (caller : Identity) (baseAsset : Nat)
    (size : SignedAmount) (price oid blockHeight orderHeight q : Nat)
    (rest : Order) : Except EngineError State :=
  match settle st1 (if size.negative then caller else rest.owner)
      (if size.negative then rest.owner else caller) baseAsset q price with
  | .ok st2 =>
    if q < size.magnitude then
      .ok { applyFill st2 rest q with
        orders := (applyFill st2 rest q).orders ++
          [⟨oid, baseAsset, caller, price,
            ⟨size.magnitude - q, size.negative⟩, blockHeight, orderHeight⟩]
        index := fun j => if j = caller then (applyFill st2 rest q).index j ++ [oid]
          else (applyFill st2 rest q).index j }
    else .ok (applyFill st2 rest q)
  | .error e => .error e

/-- Modelled from the spec (§4.3 open_order): resolve the market, escrow the
required attached funds (an implicit deposit-then-hold of exactly the
required amount from the caller's external balance), then either merge into
the existing order with the same derived id, net against the caller's
opposite-signed resting order at that price (emergent
cancellation-by-reverse-order), or insert a fresh order and append it to the
trader's index. -/
def open_order (st : State) (caller : Identity) (baseAsset : Nat)
    (size : SignedAmount) (price blockHeight orderHeight : Nat) :
    Except EngineError State :=
  if market_exists st baseAsset then
    if size.magnitude = 0 then .error .ZeroSize
    else
      if requiredAmount st.config size price ≤
          st.wallet caller (requiredAsset st.config baseAsset size) then
        match order_by_id st
            (order_id (orderTypeOf size) caller price blockHeight orderHeight) with
        | some _ =>
          .ok (openMerge
            (attach st caller (requiredAsset st.config baseAsset size)
              (requiredAmount st.config size price))
            (order_id (orderTypeOf size) caller price blockHeight orderHeight) size)
        | none =>
          match findCounter st caller baseAsset price size.negative with
          | some rest =>
            openNet
              (attach st caller (requiredAsset st.config baseAsset size)
                (requiredAmount st.config size price))
              caller baseAsset size price
              (order_id (orderTypeOf size) caller price blockHeight orderHeight)
              blockHeight orderHeight
              (min rest.base_size.magnitude size.magnitude) rest
          | none =>
            .ok (openInsert
              (attach st caller (requiredAsset st.config baseAsset size)
                (requiredAmount st.config size price))
              caller baseAsset size price
              (order_id (orderTypeOf size) caller price blockHeight orderHeight)
              blockHeight orderHeight)
      else .error .InsufficientBalance
  else .error .UnknownMarket

/-- Modelled from the spec (§4.3 cancel_order): look up the order, enforce
ownership, release the full escrowed amount — recomputed from the stored
size and price exactly as it was held — back to the owner's external
balance, and remove the order from storage and from the trader's index. -/
def cancel_order (st : State) (caller : Identity) (oid : Nat) :
    Except EngineError State :=
  match order_by_id st oid with
  | none => .error .OrderNotFound
  | some o =>
    if caller = o.owner then
      let rAsset := requiredAsset st.config o.base_asset o.base_size
      let rAmt := requiredAmount st.config o.base_size o.base_price
      if rAmt ≤ st.held o.owner rAsset then
        .ok { st with
          held := subAt st.held o.owner rAsset rAmt
          wallet := addAt st.wallet o.owner rAsset rAmt
          withdrawn := bump st.withdrawn rAsset rAmt
          orders := st.orders.filter (fun p => p.id ≠ oid)
          index := fun j => if j = o.owner then (st.index j).filter (fun x => x ≠ oid)
            else st.index j }
      else .error .InsufficientBalance
    else .error .NotOwner

/-- Modelled from the spec (§4.3 match steps 4-7): settle the minimum of the
two magnitudes between the designated seller and buyer at the trade price,
then reduce or remove both orders. -/
def matchStep (st : State) (seller buyer : Order) (t : Nat) :
    Except EngineError State :=
  match settle st seller.owner buyer.owner seller.base_asset
      (min seller.base_size.magnitude buyer.base_size.magnitude) t with
  | .ok st1 => .ok (applyFill (applyFill st1 seller
      (min seller.base_size.magnitude buyer.base_size.magnitude)) buyer
      (min seller.base_size.magnitude buyer.base_size.magnitude))
  | .error e => .error e

/-- Modelled from the spec (§4.3 match_orders): look up both orders, require
a shared market and opposite sides, and settle with the negative-signed order
as seller at the maker's price. -/
def match_orders (st : State) (idA idB : Nat) : Except EngineError State :=
  match order_by_id st idA, order_by_id st idB with
  | some oA, some oB =>
    if oA.base_asset = oB.base_asset then
      if oA.base_size.negative = oB.base_size.negative then .error .SameSide
      else if oA.base_size.negative then matchStep st oA oB (tradePrice oA oB)
      else matchStep st oB oA (tradePrice oA oB)
    else .error .IncompatibleMarket
  | _, _ => .error .OrderNotFound

/-- Modelled from the spec (§5, §6): the five mutating operations of the
engine's boundary, each tagged with its caller where ownership or attached
funds matter. -/
inductive Op where
  | deposit (caller : Identity) (asset amt : Nat)
  | withdraw (caller : Identity) (asset amt : Nat)
  | openOrder (caller : Identity) (baseAsset : Nat) (size : SignedAmount)
      (price blockHeight orderHeight : Nat)
  | cancelOrder (caller : Identity) (oid : Nat)
  | matchOrders (idA idB : Nat)

/-- Dispatch one operation. -/
def doOp (st : State) : Op → Except EngineError State
  | .deposit caller asset amt => deposit st caller asset amt
  | .withdraw caller asset amt => withdraw st caller asset amt
  | .openOrder caller baseAsset size price bh oh =>
      open_order st caller baseAsset size price bh oh
  | .cancelOrder caller oid => cancel_order st caller oid
  | .matchOrders idA idB => match_orders st idA idB

/-- Modelled from the spec (§5, §7): each operation is atomic-or-nothing — a
failed operation leaves the state unchanged. -/
def step (st : State) (op : Op) : State :=
  match doOp st op with
  | .ok st1 => st1
  | .error _ => st

/-- Run a finite sequence of operations. -/
def run (st : State) (ops : List Op) : State :=
  ops.foldl step st

/-- The identities an operation acts for (used to bound the support of the
escrow tables in the conservation proof). -/
def opCallers : Op → List Identity
  | .deposit caller _ _ => [caller]
  | .withdraw caller _ _ => [caller]
  | .openOrder caller _ _ _ _ _ => [caller]
  | .cancelOrder caller _ => [caller]
  | .matchOrders _ _ => []

/-- Modelled from the spec (§1, C1 "empty engine state"): the engine at
construction time — registered markets and configuration, no orders, no
escrow, and arbitrary external balances. -/
def initState (cfg : Config) (mkts : List (Nat × Nat))
    (w0 : Identity → Nat → Nat) : State where
  config := cfg
  markets := mkts
  orders := []
  index := fun _ => []
  wallet := w0
  escrow := fun _ _ => 0
  held := fun _ _ => 0
  deposited := fun _ => 0
  withdrawn := fun _ => 0

/-- Fixture configuration for concrete witnesses: quote asset 1 with 6
decimals, price decimals 0 (so a buy of magnitude m at price p escrows
exactly m * p quote units). -/
def testConfig : Config := ⟨1, 6, 0⟩

/-- Fixture state for concrete witnesses: one market for base asset 2, no
prior deposits or withdrawals, and the given orders, index, external
balances and order-escrow pool. -/
def testState (os : List Order) (ix : Identity → List Nat)
    (w h : Identity → Nat → Nat) : State :=
  { config := testConfig, markets := [(2, 8)], orders := os, index := ix,
    wallet := w, escrow := fun _ _ => 0, held := h,
    deposited := fun _ => 0, withdrawn := fun _ => 0 }

/-- Fixture order for concrete witnesses: a resting sell of magnitude `m` on
market 2 at price 3 by address 0. -/
def sellO (m : Nat) : Order := ⟨90, 2, .Address 0, 3, ⟨m, true⟩, 10, 1⟩

/-- Fixture order for concrete witnesses: a resting buy of magnitude `m` on
market 2 at price 3 by address 1, opened after `sellO`. -/
def buyO (m : Nat) : Order := ⟨91, 2, .Address 1, 3, ⟨m, false⟩, 10, 2⟩

/-- Fixture state for concrete witnesses: `sellO ms` and `buyO mb` resting
with exactly their required escrow held. -/
def twoOrderState (ms mb : Nat) : State :=
  testState [sellO ms, buyO mb]
    (fun j => if j = .Address 0 then [90] else if j = .Address 1 then [91] else [])
    (fun _ _ => 100)
    (fun i a => if i = Identity.Address 0 ∧ a = 2 then ms
      else if i = Identity.Address 1 ∧ a = 1 then mb * 3 else 0)

/-- The conservation invariant: every stored order's owner lies in the
participant set `S`, and for every asset the free escrow plus the order
escrow pool plus everything ever released equals everything ever taken in. -/
def Inv (S : Finset Identity) (st : State) : Prop :=
  (∀ o ∈ st.orders, o.owner ∈ S) ∧
  (∀ a, (∑ i ∈ S, st.escrow i a) + (∑ i ∈ S, st.held i a) + st.withdrawn a
      = st.deposited a)

section PoolLemmas

theorem addAt_apply (f : Identity → Nat → Nat) (i : Identity) (a d : Nat)
    (j : Identity) (b : Nat) :
    addAt f i a d j b = f j b + (if j = i ∧ b = a then d else 0) := by
  unfold addAt
  by_cases h : j = i ∧ b = a <;> simp [h]

theorem subAt_apply (f : Identity → Nat → Nat) (i : Identity) (a d : Nat)
    (j : Identity) (b : Nat) :
    subAt f i a d j b = f j b - (if j = i ∧ b = a then d else 0) := by
  unfold subAt
  by_cases h : j = i ∧ b = a <;> simp [h]

theorem bump_apply (g : Nat → Nat) (a d b : Nat) :
    bump g a d b = g b + (if b = a then d else 0) := by
  unfold bump
  by_cases h : b = a <;> simp [h]

theorem sum_addAt (S : Finset Identity) (f : Identity → Nat → Nat)
    (i : Identity) (hi : i ∈ S) (a d b : Nat) :
    (∑ j ∈ S, addAt f i a d j b) =
      (∑ j ∈ S, f j b) + (if b = a then d else 0) := by
  have h1 : ∀ j ∈ S, addAt f i a d j b =
      f j b + (if j = i then (if b = a then d else 0) else 0) := by
    intro j _
    rw [addAt_apply]
    by_cases hj : j = i <;> by_cases hb : b = a <;> simp [hj, hb]
  rw [Finset.sum_congr rfl h1, Finset.sum_add_distrib]
  congr 1
  rw [Finset.sum_ite_eq' S i (fun _ => if b = a then d else 0)]
  simp [hi]

theorem sum_subAt (S : Finset Identity) (f : Identity → Nat → Nat)
    (i : Identity) (hi : i ∈ S) (a d : Nat) (hd : d ≤ f i a) (b : Nat) :
    (∑ j ∈ S, subAt f i a d j b) + (if b = a then d else 0) =
      ∑ j ∈ S, f j b := by
  rw [← Finset.add_sum_erase S (fun j => subAt f i a d j b) hi,
    ← Finset.add_sum_erase S (fun j => f j b) hi]
  have h1 : ∀ j ∈ S.erase i, subAt f i a d j b = f j b := by
    intro j hj
    rw [subAt_apply]
    have : ¬ j = i := Finset.ne_of_mem_erase hj
    simp [this]
  rw [Finset.sum_congr rfl h1]
  rw [subAt_apply]
  by_cases hb : b = a
  · rw [if_pos ⟨rfl, hb⟩, if_pos hb]
    subst hb
    omega
  · rw [if_neg (by simp [hb]), if_neg hb]
    omega

end PoolLemmas

section StorageLemmas

theorem step_ok {st : State} {op : Op} {s : State}
    (h : doOp st op = .ok s) : step st op = s := by
  unfold step
  rw [h]

theorem step_err {st : State} {op : Op} {e : EngineError}
    (h : doOp st op = .error e) : step st op = st := by
  unfold step
  rw [h]

theorem order_by_id_mem {st : State} {oid : Nat} {o : Order}
    (h : order_by_id st oid = some o) : o ∈ st.orders :=
  List.mem_of_find?_eq_some h

theorem order_by_id_eq {st : State} {oid : Nat} {o : Order}
    (h : order_by_id st oid = some o) : o.id = oid := by
  have := List.find?_some h
  exact of_decide_eq_true this

theorem findCounter_mem {st : State} {c : Identity} {ba p : Nat} {n : Bool}
    {o : Order} (h : findCounter st c ba p n = some o) : o ∈ st.orders := by
  unfold findCounter at h
  obtain ⟨oid, _, hf⟩ := List.exists_of_findSome?_eq_some h
  rcases hlook : order_by_id st oid with _ | o'
  · rw [hlook] at hf
    simp at hf
  · rw [hlook] at hf
    by_cases hcond : o'.base_asset = ba ∧ o'.base_price = p ∧
        o'.base_size.negative ≠ n
    · simp only [if_pos hcond] at hf
      cases hf
      exact order_by_id_mem hlook
    · simp only [if_neg hcond] at hf
      cases hf

theorem findCounter_spec {st : State} {c : Identity} {ba p : Nat} {n : Bool}
    {o : Order} (h : findCounter st c ba p n = some o) :
    o.base_asset = ba ∧ o.base_price = p ∧ o.base_size.negative ≠ n := by
  unfold findCounter at h
  obtain ⟨oid, _, hf⟩ := List.exists_of_findSome?_eq_some h
  rcases hlook : order_by_id st oid with _ | o'
  · rw [hlook] at hf
    simp at hf
  · rw [hlook] at hf
    by_cases hcond : o'.base_asset = ba ∧ o'.base_price = p ∧
        o'.base_size.negative ≠ n
    · simp only [if_pos hcond] at hf
      cases hf
      exact hcond
    · simp only [if_neg hcond] at hf
      cases hf

theorem settle_ok {st : State} {so bo : Identity} {ba q p : Nat} {st' : State}
    (h : settle st so bo ba q p = .ok st') :
    q ≤ st.held so ba ∧
    q * p / 10 ^ st.config.priceDecimals ≤
      subAt st.held so ba q bo st.config.quoteAsset ∧
    st' = { st with
      held := subAt (subAt st.held so ba q) bo st.config.quoteAsset
        (q * p / 10 ^ st.config.priceDecimals)
      wallet := addAt (addAt st.wallet bo ba q) so st.config.quoteAsset
        (q * p / 10 ^ st.config.priceDecimals)
      withdrawn := bump (bump st.withdrawn ba q) st.config.quoteAsset
        (q * p / 10 ^ st.config.priceDecimals) } := by
  unfold settle at h
  split at h
  · split at h
    · cases h
      exact ⟨by assumption, by assumption, rfl⟩
    · cases h
  · cases h

theorem applyFill_orders_owner {st : State} {o : Order} {q : Nat} :
    ∀ p' ∈ (applyFill st o q).orders, ∃ p ∈ st.orders, p'.owner = p.owner := by
  unfold applyFill
  split
  · intro p' hp'
    exact ⟨p', List.mem_of_mem_filter hp', rfl⟩
  · intro p' hp'
    obtain ⟨p, hp, hEq⟩ := List.mem_map.1 hp'
    refine ⟨p, hp, ?_⟩
    subst hEq
    split <;> rfl

theorem applyFill_pools {s : State} {o : Order} {q : Nat} :
    (applyFill s o q).escrow = s.escrow ∧ (applyFill s o q).held = s.held ∧
    (applyFill s o q).wallet = s.wallet ∧
    (applyFill s o q).deposited = s.deposited ∧
    (applyFill s o q).withdrawn = s.withdrawn ∧
    (applyFill s o q).config = s.config ∧
    (applyFill s o q).markets = s.markets := by
  unfold applyFill
  split <;> exact ⟨rfl, rfl, rfl, rfl, rfl, rfl, rfl⟩

theorem open_order_eq_merge {st : State} {caller : Identity} {baseAsset : Nat}
    {size : SignedAmount} {price bh oh : Nat} {old : Order}
    (hm : market_exists st baseAsset = true) (hz : ¬ size.magnitude = 0)
    (hw : requiredAmount st.config size price ≤
      st.wallet caller (requiredAsset st.config baseAsset size))
    (hmg : order_by_id st (order_id (orderTypeOf size) caller price bh oh) =
      some old) :
    open_order st caller baseAsset size price bh oh =
      .ok (openMerge (attach st caller (requiredAsset st.config baseAsset size)
        (requiredAmount st.config size price))
        (order_id (orderTypeOf size) caller price bh oh) size) := by
  simp only [open_order, if_pos hm, if_neg hz, if_pos hw, hmg]

theorem open_order_eq_insert {st : State} {caller : Identity} {baseAsset : Nat}
    {size : SignedAmount} {price bh oh : Nat}
    (hm : market_exists st baseAsset = true) (hz : ¬ size.magnitude = 0)
    (hw : requiredAmount st.config size price ≤
      st.wallet caller (requiredAsset st.config baseAsset size))
    (hmg : order_by_id st (order_id (orderTypeOf size) caller price bh oh) = none)
    (hfc : findCounter st caller baseAsset price size.negative = none) :
    open_order st caller baseAsset size price bh oh =
      .ok (openInsert (attach st caller (requiredAsset st.config baseAsset size)
        (requiredAmount st.config size price))
        caller baseAsset size price
        (order_id (orderTypeOf size) caller price bh oh) bh oh) := by
  simp only [open_order, if_pos hm, if_neg hz, if_pos hw, hmg, hfc]

theorem open_order_eq_net {st : State} {caller : Identity} {baseAsset : Nat}
    {size : SignedAmount} {price bh oh : Nat} {rest : Order}
    (hm : market_exists st baseAsset = true) (hz : ¬ size.magnitude = 0)
    (hw : requiredAmount st.config size price ≤
      st.wallet caller (requiredAsset st.config baseAsset size))
    (hmg : order_by_id st (order_id (orderTypeOf size) caller price bh oh) = none)
    (hfc : findCounter st caller baseAsset price size.negative = some rest) :
    open_order st caller baseAsset size price bh oh =
      openNet (attach st caller (requiredAsset st.config baseAsset size)
        (requiredAmount st.config size price))
        caller baseAsset size price
        (order_id (orderTypeOf size) caller price bh oh) bh oh
        (min rest.base_size.magnitude size.magnitude) rest := by
  simp only [open_order, if_pos hm, if_neg hz, if_pos hw, hmg, hfc]

theorem cancel_order_eq_ok {st : State} {caller : Identity} {oid : Nat}
    {o : Order} (hlook : order_by_id st oid = some o) (hown : caller = o.owner)
    (hheld : requiredAmount st.config o.base_size o.base_price ≤
      st.held o.owner (requiredAsset st.config o.base_asset o.base_size)) :
    cancel_order st caller oid = .ok { st with
      held := subAt st.held o.owner
        (requiredAsset st.config o.base_asset o.base_size)
        (requiredAmount st.config o.base_size o.base_price)
      wallet := addAt st.wallet o.owner
        (requiredAsset st.config o.base_asset o.base_size)
        (requiredAmount st.config o.base_size o.base_price)
      withdrawn := bump st.withdrawn
        (requiredAsset st.config o.base_asset o.base_size)
        (requiredAmount st.config o.base_size o.base_price)
      orders := st.orders.filter (fun p => p.id ≠ oid)
      index := fun j => if j = o.owner then (st.index j).filter (fun x => x ≠ oid)
        else st.index j } := by
  simp only [cancel_order, hlook, if_pos hown, if_pos hheld]

theorem cancel_order_eq_notowner {st : State} {caller : Identity} {oid : Nat}
    {o : Order} (hlook : order_by_id st oid = some o)
    (hown : ¬ caller = o.owner) :
    cancel_order st caller oid = .error .NotOwner := by
  simp only [cancel_order, hlook, if_neg hown]

theorem match_orders_eq_fst_sell {st : State} {idA idB : Nat} {oA oB : Order}
    (hlA : order_by_id st idA = some oA) (hlB : order_by_id st idB = some oB)
    (hasset : oA.base_asset = oB.base_asset)
    (hside : ¬ oA.base_size.negative = oB.base_size.negative)
    (hneg : oA.base_size.negative = true) :
    match_orders st idA idB = matchStep st oA oB (tradePrice oA oB) := by
  have hBn : oB.base_size.negative = false := by
    cases hb : oB.base_size.negative
    · rfl
    · exact absurd (hneg.trans hb.symm) hside
  simp [match_orders, hlA, hlB, hasset, hside, hneg, hBn]

theorem match_orders_eq_fst_buy {st : State} {idA idB : Nat} {oA oB : Order}
    (hlA : order_by_id st idA = some oA) (hlB : order_by_id st idB = some oB)
    (hasset : oA.base_asset = oB.base_asset)
    (hside : ¬ oA.base_size.negative = oB.base_size.negative)
    (hneg : oA.base_size.negative = false) :
    match_orders st idA idB = matchStep st oB oA (tradePrice oA oB) := by
  have hBn : oB.base_size.negative = true := by
    cases hb : oB.base_size.negative
    · exact absurd (hneg.trans hb.symm) hside
    · rfl
  simp [match_orders, hlA, hlB, hasset, hside, hneg, hBn]

theorem matchStep_eq_ok {st : State} {seller buyer : Order} {t : Nat}
    {st1 : State}
    (hset : settle st seller.owner buyer.owner seller.base_asset
      (min seller.base_size.magnitude buyer.base_size.magnitude) t = .ok st1) :
    matchStep st seller buyer t = .ok (applyFill (applyFill st1 seller
      (min seller.base_size.magnitude buyer.base_size.magnitude)) buyer
      (min seller.base_size.magnitude buyer.base_size.magnitude)) := by
  simp only [matchStep, hset]

theorem settle_eq_ok {st : State} {so bo : Identity} {ba q p : Nat}
    (h1 : q ≤ st.held so ba)
    (h2 : q * p / 10 ^ st.config.priceDecimals ≤
      subAt st.held so ba q bo st.config.quoteAsset) :
    settle st so bo ba q p = .ok { st with
      held := subAt (subAt st.held so ba q) bo st.config.quoteAsset
        (q * p / 10 ^ st.config.priceDecimals)
      wallet := addAt (addAt st.wallet bo ba q) so st.config.quoteAsset
        (q * p / 10 ^ st.config.priceDecimals)
      withdrawn := bump (bump st.withdrawn ba q) st.config.quoteAsset
        (q * p / 10 ^ st.config.priceDecimals) } := by
  simp only [settle, if_pos h1, if_pos h2]

theorem find?_id_filter_ne {l : List Order} {x y : Nat} (hxy : x ≠ y) :
    (l.filter (fun p => p.id ≠ y)).find? (fun o => o.id = x) =
      l.find? (fun o => o.id = x) := by
  induction l with
  | nil => rfl
  | cons p l ih =>
    simp only [List.filter_cons]
    by_cases hp : p.id = y
    · have hd : (decide (p.id ≠ y)) = false := by simp [hp]
      rw [hd]
      simp only [Bool.false_eq_true, if_false]
      rw [ih]
      have hpx : ¬ (p.id = x) := by
        intro hc
        apply hxy
        rw [← hc, hp]
      rw [List.find?_cons_of_neg _ (by simp [hpx])]
    · have hd : (decide (p.id ≠ y)) = true := by simp [hp]
      rw [hd, if_pos rfl]
      by_cases hpx : p.id = x
      · rw [List.find?_cons_of_pos _ (by simp [hpx]),
          List.find?_cons_of_pos _ (by simp [hpx])]
      · rw [List.find?_cons_of_neg _ (by simp [hpx]),
          List.find?_cons_of_neg _ (by simp [hpx]), ih]

theorem find?_id_filter_self {l : List Order} {y : Nat} :
    (l.filter (fun p => p.id ≠ y)).find? (fun o => o.id = y) = none := by
  apply List.find?_eq_none.mpr
  intro o ho
  have := List.of_mem_filter ho
  simp at this ⊢
  exact this

theorem find?_id_map_update {l : List Order} {x : Nat} {g : Order → Order}
    (hg : ∀ o, (g o).id = o.id) :
    (l.map (fun p => if p.id = x then g p else p)).find? (fun o => o.id = x) =
      (l.find? (fun o => o.id = x)).map g := by
  induction l with
  | nil => rfl
  | cons p l ih =>
    by_cases hp : p.id = x
    · simp [List.find?_cons, hp, hg p]
    · simp [List.find?_cons, hp, ih]

theorem find?_id_append {l : List Order} {x : Nat} {o : Order} (ho : o.id = x)
    (hl : l.find? (fun p => p.id = x) = none) :
    (l ++ [o]).find? (fun p => p.id = x) = some o := by
  induction l with
  | nil => simp [List.find?_cons, ho]
  | cons p l ih =>
    have hp : ¬ (p.id = x) := by
      intro hc
      have hpos := List.find?_cons_of_pos (p := fun o => decide (o.id = x))
        (a := p) l (by simp [hc])
      rw [hpos] at hl
      cases hl
    have hl' : l.find? (fun p => p.id = x) = none := by
      rw [List.find?_cons_of_neg (p := fun o => decide (o.id = x)) (a := p) l
        (by simp [hp])] at hl
      exact hl
    simp only [List.cons_append]
    rw [List.find?_cons_of_neg (p := fun o => decide (o.id = x)) (a := p) _
      (by simp [hp])]
    exact ih hl'

theorem applyFill_remove {s : State} {o : Order} {q : Nat}
    (h : o.base_size.magnitude ≤ q) :
    applyFill s o q = { s with
      orders := s.orders.filter (fun p => p.id ≠ o.id)
      index := fun j => if j = o.owner then (s.index j).filter (fun x => x ≠ o.id)
        else s.index j } := by
  simp only [applyFill, if_pos h]

theorem applyFill_reduce {s : State} {o : Order} {q : Nat}
    (h : ¬ o.base_size.magnitude ≤ q) :
    applyFill s o q = { s with
      orders := s.orders.map (fun p =>
        if p.id = o.id then
          { p with base_size := { p.base_size with
              magnitude := p.base_size.magnitude - q } }
        else p) } := by
  simp only [applyFill, if_neg h]

theorem not_mem_filter_self {l : List Nat} {x : Nat} :
    x ∉ l.filter (fun v => v ≠ x) := by
  intro h
  have := List.of_mem_filter h
  simp at this

theorem not_mem_filter_of_not_mem {l : List Nat} {p : Nat → Bool} {x : Nat}
    (h : x ∉ l) : x ∉ l.filter p :=
  fun hc => h (List.mem_of_mem_filter hc)

theorem order_id_ne_of_type {t t' : OrderType} (h : ¬ t = t') {o o' : Identity}
    {p p' b b' k k' : Nat} : ¬ order_id t o p b k = order_id t' o' p' b' k' := by
  intro hc
  unfold order_id at hc
  rw [Nat.pair_eq_pair] at hc
  apply h
  have h1 := hc.1
  cases t <;> cases t' <;> simp [typeCode] at h1 ⊢

theorem matchStep_full {st : State} {s b : Order} {t : Nat}
    (hmag : s.base_size.magnitude = b.base_size.magnitude)
    (hquote : ¬ s.base_asset = st.config.quoteAsset)
    (hs1 : s.base_size.magnitude ≤ st.held s.owner s.base_asset)
    (hs2 : s.base_size.magnitude * t / 10 ^ st.config.priceDecimals ≤
      st.held b.owner st.config.quoteAsset) :
    ∃ st', matchStep st s b t = .ok st' ∧
      order_by_id st' s.id = none ∧ order_by_id st' b.id = none ∧
      s.id ∉ st'.index s.owner ∧ b.id ∉ st'.index b.owner ∧
      st'.wallet b.owner s.base_asset =
        st.wallet b.owner s.base_asset + s.base_size.magnitude ∧
      st'.wallet s.owner st.config.quoteAsset =
        st.wallet s.owner st.config.quoteAsset +
          s.base_size.magnitude * t / 10 ^ st.config.priceDecimals ∧
      st'.held s.owner s.base_asset =
        st.held s.owner s.base_asset - s.base_size.magnitude ∧
      st'.held b.owner st.config.quoteAsset =
        st.held b.owner st.config.quoteAsset -
          s.base_size.magnitude * t / 10 ^ st.config.priceDecimals := by
  have hq : min s.base_size.magnitude b.base_size.magnitude =
      s.base_size.magnitude := by omega
  have h1 : min s.base_size.magnitude b.base_size.magnitude ≤
      st.held s.owner s.base_asset := by
    rw [hq]
    exact hs1
  have h2 : min s.base_size.magnitude b.base_size.magnitude * t /
      10 ^ st.config.priceDecimals ≤
      subAt st.held s.owner s.base_asset
        (min s.base_size.magnitude b.base_size.magnitude) b.owner
        st.config.quoteAsset := by
    rw [hq, subAt_apply, if_neg (fun hc => hquote hc.2.symm)]
    omega
  have hset := settle_eq_ok h1 h2
  have hbq : b.base_size.magnitude ≤
      min s.base_size.magnitude b.base_size.magnitude := by omega
  have hsq : s.base_size.magnitude ≤
      min s.base_size.magnitude b.base_size.magnitude := by omega
  have hstep := matchStep_eq_ok hset
  rw [applyFill_remove hsq, applyFill_remove hbq] at hstep
  refine ⟨_, hstep, ?_, ?_, ?_, ?_, ?_, ?_, ?_, ?_⟩
  · apply List.find?_eq_none.mpr
    intro p hp
    have := List.of_mem_filter (List.mem_of_mem_filter hp)
    simp at this ⊢
    exact this
  · apply List.find?_eq_none.mpr
    intro p hp
    have := List.of_mem_filter hp
    simp at this ⊢
    exact this
  · show s.id ∉ (if s.owner = b.owner then _ else _)
    by_cases hob : s.owner = b.owner
    · rw [if_pos hob]
      apply not_mem_filter_of_not_mem
      show s.id ∉ (if s.owner = s.owner then _ else _)
      rw [if_pos rfl]
      exact not_mem_filter_self
    · rw [if_neg hob]
      show s.id ∉ (if s.owner = s.owner then _ else _)
      rw [if_pos rfl]
      exact not_mem_filter_self
  · show b.id ∉ (if b.owner = b.owner then _ else _)
    rw [if_pos rfl]
    exact not_mem_filter_self
  · have hc1 : ¬ (b.owner = s.owner ∧ s.base_asset = st.config.quoteAsset) :=
      fun hc => hquote hc.2
    have hc2 : b.owner = b.owner ∧ s.base_asset = s.base_asset := ⟨rfl, rfl⟩
    show addAt (addAt st.wallet b.owner s.base_asset
      (min s.base_size.magnitude b.base_size.magnitude)) s.owner
      st.config.quoteAsset (min s.base_size.magnitude b.base_size.magnitude *
        t / 10 ^ st.config.priceDecimals) b.owner s.base_asset = _
    rw [addAt_apply, addAt_apply, if_neg hc1, if_pos hc2, hq]
    omega
  · have hc1 : s.owner = s.owner ∧ st.config.quoteAsset = st.config.quoteAsset :=
      ⟨rfl, rfl⟩
    have hc2 : ¬ (s.owner = b.owner ∧ st.config.quoteAsset = s.base_asset) :=
      fun hc => hquote hc.2.symm
    show addAt (addAt st.wallet b.owner s.base_asset
      (min s.base_size.magnitude b.base_size.magnitude)) s.owner
      st.config.quoteAsset (min s.base_size.magnitude b.base_size.magnitude *
        t / 10 ^ st.config.priceDecimals) s.owner st.config.quoteAsset = _
    rw [addAt_apply, addAt_apply, if_pos hc1, if_neg hc2, hq]
    omega
  · have hc1 : ¬ (s.owner = b.owner ∧ s.base_asset = st.config.quoteAsset) :=
      fun hc => hquote hc.2
    have hc2 : s.owner = s.owner ∧ s.base_asset = s.base_asset := ⟨rfl, rfl⟩
    show subAt (subAt st.held s.owner s.base_asset
      (min s.base_size.magnitude b.base_size.magnitude)) b.owner
      st.config.quoteAsset (min s.base_size.magnitude b.base_size.magnitude *
        t / 10 ^ st.config.priceDecimals) s.owner s.base_asset = _
    rw [subAt_apply, subAt_apply, if_neg hc1, if_pos hc2, hq]
    omega
  · have hc1 : b.owner = b.owner ∧ st.config.quoteAsset = st.config.quoteAsset :=
      ⟨rfl, rfl⟩
    have hc2 : ¬ (b.owner = s.owner ∧ st.config.quoteAsset = s.base_asset) :=
      fun hc => hquote hc.2.symm
    show subAt (subAt st.held s.owner s.base_asset
      (min s.base_size.magnitude b.base_size.magnitude)) b.owner
      st.config.quoteAsset (min s.base_size.magnitude b.base_size.magnitude *
        t / 10 ^ st.config.priceDecimals) b.owner st.config.quoteAsset = _
    rw [subAt_apply, subAt_apply, if_pos hc1, if_neg hc2, hq]
    omega

theorem matchStep_partial_seller {st : State} {s b : Order} {t : Nat}
    (hls : order_by_id st s.id = some s)
    (hneq : ¬ s.id = b.id)
    (hmag : b.base_size.magnitude < s.base_size.magnitude)
    (hquote : ¬ s.base_asset = st.config.quoteAsset)
    (hs1 : b.base_size.magnitude ≤ st.held s.owner s.base_asset)
    (hs2 : b.base_size.magnitude * t / 10 ^ st.config.priceDecimals ≤
      st.held b.owner st.config.quoteAsset) :
    ∃ st', matchStep st s b t = .ok st' ∧
      order_by_id st' s.id = some { s with base_size := { s.base_size with
        magnitude := s.base_size.magnitude - b.base_size.magnitude } } ∧
      order_by_id st' b.id = none ∧
      b.id ∉ st'.index b.owner := by
  have hq : min s.base_size.magnitude b.base_size.magnitude =
      b.base_size.magnitude := by omega
  have h1 : min s.base_size.magnitude b.base_size.magnitude ≤
      st.held s.owner s.base_asset := by
    rw [hq]
    exact hs1
  have h2 : min s.base_size.magnitude b.base_size.magnitude * t /
      10 ^ st.config.priceDecimals ≤
      subAt st.held s.owner s.base_asset
        (min s.base_size.magnitude b.base_size.magnitude) b.owner
        st.config.quoteAsset := by
    rw [hq, subAt_apply, if_neg (fun hc => hquote hc.2.symm)]
    omega
  have hset := settle_eq_ok h1 h2
  have hstep := matchStep_eq_ok hset
  rw [applyFill_reduce (o := s)
    (q := min s.base_size.magnitude b.base_size.magnitude) (by omega),
    applyFill_remove (o := b)
    (q := min s.base_size.magnitude b.base_size.magnitude) (by omega),
    hq] at hstep
  refine ⟨_, hstep, ?_, ?_, ?_⟩
  · show (((st.orders.map (fun p => if p.id = s.id then { p with base_size :=
      { p.base_size with magnitude :=
        p.base_size.magnitude - b.base_size.magnitude } } else p))).filter
      (fun p => p.id ≠ b.id)).find? (fun o => o.id = s.id) = _
    rw [find?_id_filter_ne hneq, find?_id_map_update (g := fun p =>
      { p with base_size := { p.base_size with magnitude :=
        p.base_size.magnitude - b.base_size.magnitude } }) (fun o => rfl)]
    have hls' : st.orders.find? (fun o => o.id = s.id) = some s := hls
    rw [hls']
    rfl
  · show (((st.orders.map (fun p => if p.id = s.id then { p with base_size :=
      { p.base_size with magnitude :=
        p.base_size.magnitude - b.base_size.magnitude } } else p))).filter
      (fun p => p.id ≠ b.id)).find? (fun o => o.id = b.id) = none
    exact find?_id_filter_self
  · show b.id ∉ (if b.owner = b.owner then _ else _)
    rw [if_pos rfl]
    exact not_mem_filter_self

theorem matchStep_partial_buyer {st : State} {s b : Order} {t : Nat}
    (hlb : order_by_id st b.id = some b)
    (hneq : ¬ b.id = s.id)
    (hmag : s.base_size.magnitude < b.base_size.magnitude)
    (hquote : ¬ s.base_asset = st.config.quoteAsset)
    (hs1 : s.base_size.magnitude ≤ st.held s.owner s.base_asset)
    (hs2 : s.base_size.magnitude * t / 10 ^ st.config.priceDecimals ≤
      st.held b.owner st.config.quoteAsset) :
    ∃ st', matchStep st s b t = .ok st' ∧
      order_by_id st' b.id = some { b with base_size := { b.base_size with
        magnitude := b.base_size.magnitude - s.base_size.magnitude } } ∧
      order_by_id st' s.id = none ∧
      s.id ∉ st'.index s.owner := by
  have hq : min s.base_size.magnitude b.base_size.magnitude =
      s.base_size.magnitude := by omega
  have h1 : min s.base_size.magnitude b.base_size.magnitude ≤
      st.held s.owner s.base_asset := by
    rw [hq]
    exact hs1
  have h2 : min s.base_size.magnitude b.base_size.magnitude * t /
      10 ^ st.config.priceDecimals ≤
      subAt st.held s.owner s.base_asset
        (min s.base_size.magnitude b.base_size.magnitude) b.owner
        st.config.quoteAsset := by
    rw [hq, subAt_apply, if_neg (fun hc => hquote hc.2.symm)]
    omega
  have hset := settle_eq_ok h1 h2
  have hstep := matchStep_eq_ok hset
  rw [applyFill_remove (o := s)
    (q := min s.base_size.magnitude b.base_size.magnitude) (by omega),
    applyFill_reduce (o := b)
    (q := min s.base_size.magnitude b.base_size.magnitude) (by omega),
    hq] at hstep
  refine ⟨_, hstep, ?_, ?_, ?_⟩
  · show (((st.orders.filter (fun p => p.id ≠ s.id)).map
      (fun p => if p.id = b.id then { p with base_size :=
      { p.base_size with magnitude :=
        p.base_size.magnitude - s.base_size.magnitude } } else p))).find?
      (fun o => o.id = b.id) = _
    rw [find?_id_map_update (g := fun p =>
      { p with base_size := { p.base_size with magnitude :=
        p.base_size.magnitude - s.base_size.magnitude } }) (fun o => rfl),
      find?_id_filter_ne hneq]
    have hlb' : st.orders.find? (fun o => o.id = b.id) = some b := hlb
    rw [hlb']
    rfl
  · show (((st.orders.filter (fun p => p.id ≠ s.id)).map
      (fun p => if p.id = b.id then { p with base_size :=
      { p.base_size with magnitude :=
        p.base_size.magnitude - s.base_size.magnitude } } else p))).find?
      (fun o => o.id = s.id) = none
    apply List.find?_eq_none.mpr
    intro p hp
    obtain ⟨p0, hp0, he⟩ := List.mem_map.1 hp
    have hid : p.id = p0.id := by
      rw [← he]
      split <;> rfl
    have := List.of_mem_filter hp0
    simp only [decide_eq_true_eq, ne_eq] at this
    simp only [decide_eq_true_eq]
    rw [hid]
    simpa using this
  · show s.id ∉ (if s.owner = s.owner then _ else _)
    rw [if_pos rfl]
    exact not_mem_filter_self

end StorageLemmas

section Conservation

theorem sums_settle {S : Finset Identity} {st st' : State} {so bo : Identity}
    {ba q p : Nat} (hso : so ∈ S) (hbo : bo ∈ S)
    (h : settle st so bo ba q p = .ok st')
    (hC : ∀ a, (∑ i ∈ S, st.escrow i a) + (∑ i ∈ S, st.held i a) +
      st.withdrawn a = st.deposited a) :
    (∀ a, (∑ i ∈ S, st'.escrow i a) + (∑ i ∈ S, st'.held i a) +
      st'.withdrawn a = st'.deposited a) ∧
    st'.orders = st.orders ∧ st'.index = st.index ∧
    st'.config = st.config ∧ st'.escrow = st.escrow := by
  obtain ⟨h1, h2, rfl⟩ := settle_ok h
  refine ⟨?_, rfl, rfl, rfl, rfl⟩
  intro a
  have e1 := sum_subAt S st.held so hso ba q h1 a
  have e2 := sum_subAt S (subAt st.held so ba q) bo hbo
    st.config.quoteAsset (q * p / 10 ^ st.config.priceDecimals) h2 a
  have e3 := hC a
  simp only [bump_apply]
  omega

theorem inv_attach {S : Finset Identity} {st : State} {caller : Identity}
    {rAsset rAmt : Nat} (hcS : caller ∈ S) (h : Inv S st) :
    Inv S (attach st caller rAsset rAmt) := by
  obtain ⟨hA, hC⟩ := h
  refine ⟨hA, ?_⟩
  intro a
  show (∑ i ∈ S, st.escrow i a) +
    (∑ i ∈ S, addAt st.held caller rAsset rAmt i a) + st.withdrawn a
    = bump st.deposited rAsset rAmt a
  rw [sum_addAt S st.held caller hcS rAsset rAmt a, bump_apply]
  have := hC a
  omega

theorem inv_deposit {S : Finset Identity} {st : State} {caller : Identity}
    {asset amt : Nat} (hcS : caller ∈ S) (h : Inv S st) :
    Inv S (step st (.deposit caller asset amt)) := by
  obtain ⟨hA, hC⟩ := h
  by_cases hcond : amt ≤ st.wallet caller asset
  · rw [step_ok (s := { st with
      wallet := subAt st.wallet caller asset amt
      escrow := addAt st.escrow caller asset amt
      deposited := bump st.deposited asset amt })
      (by simp only [doOp, deposit, if_pos hcond])]
    refine ⟨hA, ?_⟩
    intro a
    show (∑ i ∈ S, addAt st.escrow caller asset amt i a) +
      (∑ i ∈ S, st.held i a) + st.withdrawn a = bump st.deposited asset amt a
    rw [sum_addAt S st.escrow caller hcS asset amt a, bump_apply]
    have := hC a
    omega
  · rw [step_err (e := .InsufficientBalance)
      (by simp only [doOp, deposit, if_neg hcond])]
    exact ⟨hA, hC⟩

theorem inv_withdraw {S : Finset Identity} {st : State} {caller : Identity}
    {asset amt : Nat} (hcS : caller ∈ S) (h : Inv S st) :
    Inv S (step st (.withdraw caller asset amt)) := by
  obtain ⟨hA, hC⟩ := h
  by_cases hcond : amt ≤ st.escrow caller asset
  · rw [step_ok (s := { st with
      escrow := subAt st.escrow caller asset amt
      wallet := addAt st.wallet caller asset amt
      withdrawn := bump st.withdrawn asset amt })
      (by simp only [doOp, withdraw, if_pos hcond])]
    refine ⟨hA, ?_⟩
    intro a
    show (∑ i ∈ S, subAt st.escrow caller asset amt i a) +
      (∑ i ∈ S, st.held i a) + bump st.withdrawn asset amt a = st.deposited a
    have e1 := sum_subAt S st.escrow caller hcS asset amt hcond a
    rw [bump_apply]
    have := hC a
    omega
  · rw [step_err (e := .InsufficientBalance)
      (by simp only [doOp, withdraw, if_neg hcond])]
    exact ⟨hA, hC⟩

theorem inv_open {S : Finset Identity} {st : State} {caller : Identity}
    {baseAsset : Nat} {size : SignedAmount} {price bh oh : Nat}
    (hcS : caller ∈ S) (h : Inv S st) :
    Inv S (step st (.openOrder caller baseAsset size price bh oh)) := by
  by_cases hm : market_exists st baseAsset
  · by_cases hz : size.magnitude = 0
    · rw [step_err (e := .ZeroSize)
        (by simp only [doOp, open_order, if_pos hm, if_pos hz])]
      exact h
    · by_cases hw : requiredAmount st.config size price ≤
          st.wallet caller (requiredAsset st.config baseAsset size)
      · have h1 : Inv S (attach st caller (requiredAsset st.config baseAsset size)
            (requiredAmount st.config size price)) := inv_attach hcS h
        rcases hmg : order_by_id st (order_id (orderTypeOf size) caller price bh oh)
            with _ | old
        · rcases hfc : findCounter st caller baseAsset price size.negative
              with _ | rest
          · rw [step_ok (s := openInsert
                (attach st caller (requiredAsset st.config baseAsset size)
                  (requiredAmount st.config size price))
                caller baseAsset size price
                (order_id (orderTypeOf size) caller price bh oh) bh oh)
              (by simp only [doOp, open_order, if_pos hm, if_neg hz, if_pos hw,
                hmg, hfc])]
            refine ⟨?_, ?_⟩
            · intro p hp
              simp only [openInsert] at hp
              rcases List.mem_append.1 hp with hp | hp
              · exact h1.1 p hp
              · simp only [List.mem_singleton] at hp
                subst hp
                exact hcS
            · intro a
              simp only [openInsert]
              exact h1.2 a
          · have hrS : rest.owner ∈ S := h.1 rest (findCounter_mem hfc)
            have hso : (if size.negative then caller else rest.owner) ∈ S := by
              split
              · exact hcS
              · exact hrS
            have hbo : (if size.negative then rest.owner else caller) ∈ S := by
              split
              · exact hrS
              · exact hcS
            rcases hset : settle
                (attach st caller (requiredAsset st.config baseAsset size)
                  (requiredAmount st.config size price))
                (if size.negative then caller else rest.owner)
                (if size.negative then rest.owner else caller) baseAsset
                (min rest.base_size.magnitude size.magnitude) price with e | st2
            · rw [step_err (e := e)
                (by simp only [doOp, open_order, if_pos hm, if_neg hz, if_pos hw,
                  hmg, hfc, openNet, hset])]
              exact h
            · obtain ⟨hsum2, horders2, _, _, _⟩ := sums_settle hso hbo hset h1.2
              obtain ⟨hE, hH, hW, hD, hWd, _, _⟩ := applyFill_pools (s := st2)
                (o := rest) (q := min rest.base_size.magnitude size.magnitude)
              have hAfill : ∀ p ∈ (applyFill st2 rest
                  (min rest.base_size.magnitude size.magnitude)).orders,
                  p.owner ∈ S := by
                intro p hp
                obtain ⟨p2, hp2, he2⟩ := applyFill_orders_owner p hp
                rw [he2]
                rw [horders2] at hp2
                exact h.1 p2 hp2
              by_cases hq : min rest.base_size.magnitude size.magnitude <
                  size.magnitude
              · rw [step_ok (s := { applyFill st2 rest
                    (min rest.base_size.magnitude size.magnitude) with
                  orders := (applyFill st2 rest
                    (min rest.base_size.magnitude size.magnitude)).orders ++
                    [⟨order_id (orderTypeOf size) caller price bh oh, baseAsset,
                      caller, price,
                      ⟨size.magnitude - min rest.base_size.magnitude size.magnitude,
                        size.negative⟩, bh, oh⟩]
                  index := fun j => if j = caller then (applyFill st2 rest
                      (min rest.base_size.magnitude size.magnitude)).index j ++
                      [order_id (orderTypeOf size) caller price bh oh]
                    else (applyFill st2 rest
                      (min rest.base_size.magnitude size.magnitude)).index j })
                  (by simp only [doOp, open_order, if_pos hm, if_neg hz,
                    if_pos hw, hmg, hfc, openNet, hset, if_pos hq])]
                refine ⟨?_, ?_⟩
                · intro p hp
                  rcases List.mem_append.1 hp with hp | hp
                  · exact hAfill p hp
                  · simp only [List.mem_singleton] at hp
                    subst hp
                    exact hcS
                · intro a
                  show (∑ i ∈ S, (applyFill st2 rest
                      (min rest.base_size.magnitude size.magnitude)).escrow i a) +
                    (∑ i ∈ S, (applyFill st2 rest
                      (min rest.base_size.magnitude size.magnitude)).held i a) +
                    (applyFill st2 rest
                      (min rest.base_size.magnitude size.magnitude)).withdrawn a =
                    (applyFill st2 rest
                      (min rest.base_size.magnitude size.magnitude)).deposited a
                  rw [hE, hH, hD, hWd]
                  exact hsum2 a
              · rw [step_ok (s := applyFill st2 rest
                    (min rest.base_size.magnitude size.magnitude))
                  (by simp only [doOp, open_order, if_pos hm, if_neg hz,
                    if_pos hw, hmg, hfc, openNet, hset, if_neg hq])]
                refine ⟨hAfill, ?_⟩
                intro a
                rw [hE, hH, hD, hWd]
                exact hsum2 a
        · rw [step_ok (s := openMerge
              (attach st caller (requiredAsset st.config baseAsset size)
                (requiredAmount st.config size price))
              (order_id (orderTypeOf size) caller price bh oh) size)
            (by simp only [doOp, open_order, if_pos hm, if_neg hz, if_pos hw,
              hmg])]
          refine ⟨?_, ?_⟩
          · intro p hp
            simp only [openMerge] at hp
            obtain ⟨p1, hp1, he⟩ := List.mem_map.1 hp
            have hown : p.owner = p1.owner := by
              rw [← he]
              split <;> rfl
            rw [hown]
            exact h1.1 p1 hp1
          · intro a
            simp only [openMerge]
            exact h1.2 a
      · rw [step_err (e := .InsufficientBalance)
          (by simp only [doOp, open_order, if_pos hm, if_neg hz, if_neg hw])]
        exact h
  · rw [step_err (e := .UnknownMarket) (by simp only [doOp, open_order, if_neg hm])]
    exact h

theorem inv_cancel {S : Finset Identity} {st : State} {caller : Identity}
    {oid : Nat} (h : Inv S st) :
    Inv S (step st (.cancelOrder caller oid)) := by
  obtain ⟨hA, hC⟩ := h
  rcases hlook : order_by_id st oid with _ | o
  · rw [step_err (e := .OrderNotFound) (by simp only [doOp, cancel_order, hlook])]
    exact ⟨hA, hC⟩
  · by_cases hown : caller = o.owner
    · by_cases hheld : requiredAmount st.config o.base_size o.base_price ≤
        st.held o.owner (requiredAsset st.config o.base_asset o.base_size)
      · rw [step_ok (s := { st with
          held := subAt st.held o.owner
            (requiredAsset st.config o.base_asset o.base_size)
            (requiredAmount st.config o.base_size o.base_price)
          wallet := addAt st.wallet o.owner
            (requiredAsset st.config o.base_asset o.base_size)
            (requiredAmount st.config o.base_size o.base_price)
          withdrawn := bump st.withdrawn
            (requiredAsset st.config o.base_asset o.base_size)
            (requiredAmount st.config o.base_size o.base_price)
          orders := st.orders.filter (fun p => p.id ≠ oid)
          index := fun j => if j = o.owner then (st.index j).filter (fun x => x ≠ oid)
            else st.index j })
          (by simp only [doOp, cancel_order, hlook, if_pos hown, if_pos hheld])]
        have hoS : o.owner ∈ S := hA o (order_by_id_mem hlook)
        refine ⟨?_, ?_⟩
        · intro p hp
          exact hA p (List.mem_of_mem_filter hp)
        · intro a
          show (∑ i ∈ S, st.escrow i a) +
            (∑ i ∈ S, subAt st.held o.owner _ _ i a) + bump st.withdrawn _ _ a
            = st.deposited a
          have e1 := sum_subAt S st.held o.owner hoS
            (requiredAsset st.config o.base_asset o.base_size)
            (requiredAmount st.config o.base_size o.base_price) hheld a
          rw [bump_apply]
          have := hC a
          omega
      · rw [step_err (e := .InsufficientBalance)
          (by simp only [doOp, cancel_order, hlook, if_pos hown, if_neg hheld])]
        exact ⟨hA, hC⟩
    · rw [step_err (e := .NotOwner)
        (by simp only [doOp, cancel_order, hlook, if_neg hown])]
      exact ⟨hA, hC⟩

theorem inv_matchStep {S : Finset Identity} {st : State} {seller buyer : Order}
    {t : Nat} {st' : State} (hsS : seller.owner ∈ S) (hbS : buyer.owner ∈ S)
    (h : Inv S st) (hok : matchStep st seller buyer t = .ok st') :
    Inv S st' := by
  obtain ⟨hA, hC⟩ := h
  unfold matchStep at hok
  rcases hset : settle st seller.owner buyer.owner seller.base_asset
      (min seller.base_size.magnitude buyer.base_size.magnitude) t with e | st1
  · rw [hset] at hok
    cases hok
  · rw [hset] at hok
    cases hok
    obtain ⟨hsum1, horders1, _, _, _⟩ := sums_settle hsS hbS hset hC
    refine ⟨?_, ?_⟩
    · intro p hp
      obtain ⟨p1, hp1, he1⟩ := applyFill_orders_owner p hp
      obtain ⟨p2, hp2, he2⟩ := applyFill_orders_owner p1 hp1
      rw [he1, he2]
      rw [horders1] at hp2
      exact hA p2 hp2
    · intro a
      obtain ⟨hE1, hH1, _, hD1, hW1, _, _⟩ := applyFill_pools
        (s := applyFill st1 seller
          (min seller.base_size.magnitude buyer.base_size.magnitude))
        (o := buyer)
        (q := min seller.base_size.magnitude buyer.base_size.magnitude)
      obtain ⟨hE2, hH2, _, hD2, hW2, _, _⟩ := applyFill_pools (s := st1)
        (o := seller)
        (q := min seller.base_size.magnitude buyer.base_size.magnitude)
      rw [hE1, hH1, hD1, hW1, hE2, hH2, hD2, hW2]
      exact hsum1 a

theorem inv_match {S : Finset Identity} {st : State} {idA idB : Nat}
    (h : Inv S st) : Inv S (step st (.matchOrders idA idB)) := by
  rcases hlA : order_by_id st idA with _ | oA
  · rw [step_err (e := .OrderNotFound) (by simp only [doOp, match_orders, hlA])]
    exact h
  · rcases hlB : order_by_id st idB with _ | oB
    · rw [step_err (e := .OrderNotFound)
        (by simp only [doOp, match_orders, hlA, hlB])]
      exact h
    · by_cases hasset : oA.base_asset = oB.base_asset
      · by_cases hside : oA.base_size.negative = oB.base_size.negative
        · rw [step_err (e := .SameSide)
            (by simp only [doOp, match_orders, hlA, hlB, if_pos hasset,
              if_pos hside])]
          exact h
        · have hoAS : oA.owner ∈ S := h.1 oA (order_by_id_mem hlA)
          have hoBS : oB.owner ∈ S := h.1 oB (order_by_id_mem hlB)
          by_cases hneg : oA.base_size.negative
          · rcases hms : matchStep st oA oB (tradePrice oA oB) with e | st'
            · rw [step_err (e := e) (by simp only [doOp, match_orders, hlA, hlB,
                if_pos hasset, if_neg hside, if_pos hneg, hms])]
              exact h
            · rw [step_ok (s := st') (by simp only [doOp, match_orders, hlA,
                hlB, if_pos hasset, if_neg hside, if_pos hneg, hms])]
              exact inv_matchStep hoAS hoBS h hms
          · rcases hms : matchStep st oB oA (tradePrice oA oB) with e | st'
            · rw [step_err (e := e) (by simp only [doOp, match_orders, hlA, hlB,
                if_pos hasset, if_neg hside, if_neg hneg, hms])]
              exact h
            · rw [step_ok (s := st') (by simp only [doOp, match_orders, hlA,
                hlB, if_pos hasset, if_neg hside, if_neg hneg, hms])]
              exact inv_matchStep hoBS hoAS h hms
      · rw [step_err (e := .IncompatibleMarket)
          (by simp only [doOp, match_orders, hlA, hlB, if_neg hasset])]
        exact h

theorem inv_step {S : Finset Identity} {st : State} {op : Op}
    (hc : ∀ i ∈ opCallers op, i ∈ S) (h : Inv S st) : Inv S (step st op) := by
  cases op with
  | deposit caller asset amt =>
    exact inv_deposit (hc caller (by simp [opCallers])) h
  | withdraw caller asset amt =>
    exact inv_withdraw (hc caller (by simp [opCallers])) h
  | openOrder caller baseAsset size price bh oh =>
    exact inv_open (hc caller (by simp [opCallers])) h
  | cancelOrder caller oid => exact inv_cancel h
  | matchOrders idA idB => exact inv_match h

theorem inv_run {S : Finset Identity} {st : State} {ops : List Op}
    (hc : ∀ op ∈ ops, ∀ i ∈ opCallers op, i ∈ S) (h : Inv S st) :
    Inv S (run st ops) := by
  induction ops generalizing st with
  | nil => exact h
  | cons op ops ih =>
    exact ih (fun o ho => hc o (List.mem_cons_of_mem op ho))
      (inv_step (hc op (List.mem_cons_self op ops)) h)

theorem inv_init (S : Finset Identity) (cfg : Config) (mkts : List (Nat × Nat))
    (w0 : Identity → Nat → Nat) : Inv S (initState cfg mkts w0) := by
  refine ⟨?_, ?_⟩
  · intro o ho
    simp [initState] at ho
  · intro a
    simp [initState]

end Conservation

section Claims

/-- C1: For every finite sequence of deposit, withdraw, open_order,
cancel_order and match_orders operations starting from the empty engine
state, and for every asset, the sum of all free escrow balances for that
asset plus the sum of escrow backing all open orders for that asset equals
the total amount ever deposited of that asset minus the total amount ever
withdrawn of that asset.  "Deposited" counts every unit that entered the
engine (explicit deposits and funds attached to `open_order` calls) and
"withdrawn" every unit the engine released to an external balance
(withdrawals, cancel refunds, match settlements), per the spec's implicit
deposit-then-hold and release conventions; `S` is any finite set covering
every operation's caller, so the two sums range over all identities with
nonzero balances. -/
theorem conservation_law (cfg : Config) (mkts : List (Nat × Nat))
    (w0 : Identity → Nat → Nat) (ops : List Op) (S : Finset Identity)
    (hS : ∀ op ∈ ops, ∀ i ∈ opCallers op, i ∈ S) (a : Nat) :
    (∑ i ∈ S, (run (initState cfg mkts w0) ops).escrow i a) +
      (∑ i ∈ S, (run (initState cfg mkts w0) ops).held i a) =
      (run (initState cfg mkts w0) ops).deposited a -
        (run (initState cfg mkts w0) ops).withdrawn a := by
  have h := inv_run hS (inv_init S cfg mkts w0)
  have := h.2 a
  omega

/-- Witness for C1 at a concrete trace: a deposit, a sell order opened, and
its cancellation by the same trader. -/
theorem conservation_law_witness :
    (∀ op ∈ [Op.deposit (.Address 0) 1 7,
        Op.openOrder (.Address 0) 2 ⟨5, true⟩ 3 0 0,
        Op.cancelOrder (.Address 0) (order_id .Sell (.Address 0) 3 0 0)],
      ∀ i ∈ opCallers op, i ∈ ({Identity.Address 0} : Finset Identity)) ∧
    (∑ i ∈ ({Identity.Address 0} : Finset Identity),
        (run (initState ⟨1, 6, 0⟩ [(2, 8)] (fun _ _ => 100))
          [Op.deposit (.Address 0) 1 7,
            Op.openOrder (.Address 0) 2 ⟨5, true⟩ 3 0 0,
            Op.cancelOrder (.Address 0) (order_id .Sell (.Address 0) 3 0 0)]).escrow
          i 2) +
      (∑ i ∈ ({Identity.Address 0} : Finset Identity),
        (run (initState ⟨1, 6, 0⟩ [(2, 8)] (fun _ _ => 100))
          [Op.deposit (.Address 0) 1 7,
            Op.openOrder (.Address 0) 2 ⟨5, true⟩ 3 0 0,
            Op.cancelOrder (.Address 0) (order_id .Sell (.Address 0) 3 0 0)]).held
          i 2) =
      (run (initState ⟨1, 6, 0⟩ [(2, 8)] (fun _ _ => 100))
        [Op.deposit (.Address 0) 1 7,
          Op.openOrder (.Address 0) 2 ⟨5, true⟩ 3 0 0,
          Op.cancelOrder (.Address 0) (order_id .Sell (.Address 0) 3 0 0)]).deposited
        2 -
      (run (initState ⟨1, 6, 0⟩ [(2, 8)] (fun _ _ => 100))
        [Op.deposit (.Address 0) 1 7,
          Op.openOrder (.Address 0) 2 ⟨5, true⟩ 3 0 0,
          Op.cancelOrder (.Address 0) (order_id .Sell (.Address 0) 3 0 0)]).withdrawn
        2 :=
  ⟨by decide,
    conservation_law ⟨1, 6, 0⟩ [(2, 8)] (fun _ _ => 100)
      [Op.deposit (.Address 0) 1 7,
        Op.openOrder (.Address 0) 2 ⟨5, true⟩ 3 0 0,
        Op.cancelOrder (.Address 0) (order_id .Sell (.Address 0) 3 0 0)]
      {Identity.Address 0} (by decide) 2⟩

/-- C9: The order id is a pure function of
(order_type, owner_identity, base_price, block_height, order_height):
two computations agree exactly when the inputs agree (determinism and
content-addressing), `orderTypeOf` is `Buy` exactly when the size is
positive (not negative), and the discriminated identity encoding keeps an
address and a contract with the same underlying bytes from ever producing
the same id. -/
theorem order_id_properties :
    (∀ t o p b h t' o' p' b' h', order_id t o p b h = order_id t' o' p' b' h' ↔
      (t = t' ∧ o = o' ∧ p = p' ∧ b = b' ∧ h = h')) ∧
    (∀ s : SignedAmount, orderTypeOf s = .Buy ↔ s.negative = false) ∧
    (∀ x t p b h, order_id t (.Address x) p b h ≠ order_id t (.ContractId x) p b h) := by
  have htc : ∀ t t' : OrderType, typeCode t = typeCode t' → t = t' := by
    intro t t' h
    cases t <;> cases t' <;> simp [typeCode] at h ⊢
  have hid : ∀ o o' : Identity, encodeIdentity o = encodeIdentity o' → o = o' := by
    intro o o' h
    cases o <;> cases o' <;>
      simp only [encodeIdentity, Nat.pair_eq_pair] at h <;> simp_all
  refine ⟨?_, ?_, ?_⟩
  · intro t o p b h t' o' p' b' h'
    constructor
    · intro he
      unfold order_id at he
      rw [Nat.pair_eq_pair] at he
      obtain ⟨h1, h2⟩ := he
      rw [Nat.pair_eq_pair] at h2
      obtain ⟨h2, h3⟩ := h2
      rw [Nat.pair_eq_pair] at h3
      obtain ⟨h3, h4⟩ := h3
      rw [Nat.pair_eq_pair] at h4
      obtain ⟨h4, h5⟩ := h4
      exact ⟨htc _ _ h1, hid _ _ h2, h3, h4, h5⟩
    · rintro ⟨rfl, rfl, rfl, rfl, rfl⟩
      rfl
  · intro s
    unfold orderTypeOf
    cases hs : s.negative <;> simp
  · intro x t p b h he
    unfold order_id at he
    rw [Nat.pair_eq_pair] at he
    have h2 := he.2
    rw [Nat.pair_eq_pair] at h2
    have h3 := h2.1
    simp [encodeIdentity, Nat.pair_eq_pair] at h3

/-- Witness for C9: a concrete address identity and contract identity with
the same underlying bytes yield distinct ids. -/
theorem order_id_properties_witness :
    order_id .Buy (.Address 0) 1 2 3 ≠ order_id .Buy (.ContractId 0) 1 2 3 :=
  order_id_properties.2.2 0 .Buy 1 2 3

/-- C8: For every stored order and every caller identity different from the
order's owner, cancel_order by that caller fails with NotOwner and leaves the
entire engine state unchanged (the step relation returns the same state), so
a subsequent cancel by the true owner still succeeds with the full refund —
the order disappears from storage and from the owner's index and the full
escrowed amount is credited to the owner's external balance. -/
theorem cancel_ownership_guard {st : State} {caller : Identity} {oid : Nat}
    {o : Order} (hlook : order_by_id st oid = some o) (hown : caller ≠ o.owner)
    (hheld : requiredAmount st.config o.base_size o.base_price ≤
      st.held o.owner (requiredAsset st.config o.base_asset o.base_size)) :
    cancel_order st caller oid = .error .NotOwner ∧
    step st (.cancelOrder caller oid) = st ∧
    ∃ st', cancel_order st o.owner oid = .ok st' ∧
      st'.wallet o.owner (requiredAsset st.config o.base_asset o.base_size) =
        st.wallet o.owner (requiredAsset st.config o.base_asset o.base_size) +
          requiredAmount st.config o.base_size o.base_price ∧
      order_by_id st' oid = none ∧
      oid ∉ st'.index o.owner := by
  have herr := cancel_order_eq_notowner hlook hown
  refine ⟨herr, step_err (by simp only [doOp]; exact herr), ?_⟩
  refine ⟨_, cancel_order_eq_ok hlook rfl hheld, ?_, ?_, ?_⟩
  · show addAt st.wallet o.owner (requiredAsset st.config o.base_asset o.base_size)
      (requiredAmount st.config o.base_size o.base_price) o.owner
      (requiredAsset st.config o.base_asset o.base_size) = _
    rw [addAt_apply]
    simp
  · show (st.orders.filter (fun p => p.id ≠ oid)).find? (fun p => p.id = oid)
      = none
    exact find?_id_filter_self
  · show oid ∉ (if o.owner = o.owner then (st.index o.owner).filter
      (fun x => x ≠ oid) else st.index o.owner)
    rw [if_pos rfl]
    intro hmem
    have := List.of_mem_filter hmem
    simp at this

/-- Witness for C8 at a concrete state: a resting sell order owned by
address 0, a cancel attempt by address 1, then the owner's cancel. -/
theorem cancel_ownership_guard_witness :
    (order_by_id (testState [⟨77, 2, .Address 0, 3, ⟨5, true⟩, 10, 1⟩]
        (fun j => if j = .Address 0 then [77] else [])
        (fun _ _ => 100)
        (fun i a => if i = Identity.Address 0 ∧ a = 2 then 5 else 0)) 77 =
      some ⟨77, 2, .Address 0, 3, ⟨5, true⟩, 10, 1⟩) ∧
    (cancel_order (testState [⟨77, 2, .Address 0, 3, ⟨5, true⟩, 10, 1⟩]
        (fun j => if j = .Address 0 then [77] else [])
        (fun _ _ => 100)
        (fun i a => if i = Identity.Address 0 ∧ a = 2 then 5 else 0))
      (.Address 1) 77 = .error .NotOwner ∧
    step (testState [⟨77, 2, .Address 0, 3, ⟨5, true⟩, 10, 1⟩]
        (fun j => if j = .Address 0 then [77] else [])
        (fun _ _ => 100)
        (fun i a => if i = Identity.Address 0 ∧ a = 2 then 5 else 0))
      (.cancelOrder (.Address 1) 77) =
      testState [⟨77, 2, .Address 0, 3, ⟨5, true⟩, 10, 1⟩]
        (fun j => if j = .Address 0 then [77] else [])
        (fun _ _ => 100)
        (fun i a => if i = Identity.Address 0 ∧ a = 2 then 5 else 0) ∧
    ∃ st', cancel_order (testState [⟨77, 2, .Address 0, 3, ⟨5, true⟩, 10, 1⟩]
        (fun j => if j = .Address 0 then [77] else [])
        (fun _ _ => 100)
        (fun i a => if i = Identity.Address 0 ∧ a = 2 then 5 else 0))
        (Identity.Address 0) 77 = .ok st' ∧
      st'.wallet (Identity.Address 0) 2 = 100 + 5 ∧
      order_by_id st' 77 = none ∧
      77 ∉ st'.index (Identity.Address 0)) :=
  ⟨rfl, @cancel_ownership_guard
    (testState [⟨77, 2, .Address 0, 3, ⟨5, true⟩, 10, 1⟩]
      (fun j => if j = .Address 0 then [77] else [])
      (fun _ _ => 100)
      (fun i a => if i = Identity.Address 0 ∧ a = 2 then 5 else 0))
    (.Address 1) 77 ⟨77, 2, .Address 0, 3, ⟨5, true⟩, 10, 1⟩
    rfl (by decide) (by decide)⟩

/-- C3: Opening a second order with parameters identical to an existing
stored order (hence the same derived id and the same sign) merges into that
one stored order: the stored magnitude becomes the sum of the existing and
incoming magnitudes, the incoming attached funds are escrowed additively
into the order-escrow pool, and the trader's index is unchanged — in
particular it still contains exactly one entry for that id if it did
before. -/
theorem merge_idempotence {st : State} {caller : Identity} {baseAsset : Nat}
    {size : SignedAmount} {price bh oh : Nat} {old : Order}
    (hm : market_exists st baseAsset = true) (hz : ¬ size.magnitude = 0)
    (hw : requiredAmount st.config size price ≤
      st.wallet caller (requiredAsset st.config baseAsset size))
    (hmg : order_by_id st (order_id (orderTypeOf size) caller price bh oh) =
      some old) :
    ∃ st', open_order st caller baseAsset size price bh oh = .ok st' ∧
      order_by_id st' (order_id (orderTypeOf size) caller price bh oh) =
        some { old with base_size := { old.base_size with
          magnitude := old.base_size.magnitude + size.magnitude } } ∧
      st'.held caller (requiredAsset st.config baseAsset size) =
        st.held caller (requiredAsset st.config baseAsset size) +
          requiredAmount st.config size price ∧
      st'.index = st.index ∧
      (List.count (order_id (orderTypeOf size) caller price bh oh)
          (st.index caller) = 1 →
        List.count (order_id (orderTypeOf size) caller price bh oh)
          (st'.index caller) = 1) := by
  refine ⟨_, open_order_eq_merge hm hz hw hmg, ?_, ?_, rfl, fun h => h⟩
  · show (st.orders.map (fun p =>
      if p.id = order_id (orderTypeOf size) caller price bh oh then
        { p with base_size := { p.base_size with
            magnitude := p.base_size.magnitude + size.magnitude } }
      else p)).find?
      (fun o => o.id = order_id (orderTypeOf size) caller price bh oh) = _
    rw [find?_id_map_update (g := fun p => { p with base_size :=
      { p.base_size with magnitude := p.base_size.magnitude + size.magnitude } })
      (fun o => rfl)]
    have hmg' : st.orders.find?
        (fun o => o.id = order_id (orderTypeOf size) caller price bh oh) =
        some old := hmg
    rw [hmg']
    rfl
  · show addAt st.held caller (requiredAsset st.config baseAsset size)
      (requiredAmount st.config size price) caller
      (requiredAsset st.config baseAsset size) = _
    rw [addAt_apply]
    simp

/-- Witness for C3: a resting sell order of magnitude 5 merged with an
identically-parameterised incoming sell of magnitude 7. -/
theorem merge_idempotence_witness :
    (market_exists (testState
        [⟨order_id .Sell (.Address 0) 3 10 1, 2, .Address 0, 3, ⟨5, true⟩, 10, 1⟩]
        (fun j => if j = .Address 0 then [order_id .Sell (.Address 0) 3 10 1] else [])
        (fun _ _ => 100)
        (fun i a => if i = Identity.Address 0 ∧ a = 2 then 5 else 0)) 2 = true) ∧
    (¬ (5 : Nat) + 2 = 0) ∧
    (∃ st', open_order (testState
        [⟨order_id .Sell (.Address 0) 3 10 1, 2, .Address 0, 3, ⟨5, true⟩, 10, 1⟩]
        (fun j => if j = .Address 0 then [order_id .Sell (.Address 0) 3 10 1] else [])
        (fun _ _ => 100)
        (fun i a => if i = Identity.Address 0 ∧ a = 2 then 5 else 0))
        (.Address 0) 2 ⟨7, true⟩ 3 10 1 = .ok st' ∧
      order_by_id st' (order_id .Sell (.Address 0) 3 10 1) =
        some ⟨order_id .Sell (.Address 0) 3 10 1, 2, .Address 0, 3,
          ⟨12, true⟩, 10, 1⟩ ∧
      st'.held (Identity.Address 0) 2 = 5 + 7 ∧
      st'.index = (testState
        [⟨order_id .Sell (.Address 0) 3 10 1, 2, .Address 0, 3, ⟨5, true⟩, 10, 1⟩]
        (fun j => if j = .Address 0 then [order_id .Sell (.Address 0) 3 10 1] else [])
        (fun _ _ => 100)
        (fun i a => if i = Identity.Address 0 ∧ a = 2 then 5 else 0)).index ∧
      (List.count (order_id .Sell (.Address 0) 3 10 1)
          ((testState
            [⟨order_id .Sell (.Address 0) 3 10 1, 2, .Address 0, 3, ⟨5, true⟩, 10, 1⟩]
            (fun j => if j = .Address 0 then [order_id .Sell (.Address 0) 3 10 1] else [])
            (fun _ _ => 100)
            (fun i a => if i = Identity.Address 0 ∧ a = 2 then 5 else 0)).index
            (.Address 0)) = 1 →
        List.count (order_id .Sell (.Address 0) 3 10 1)
          (st'.index (.Address 0)) = 1)) :=
  ⟨by decide, by decide,
    @merge_idempotence
      (testState
        [⟨order_id .Sell (.Address 0) 3 10 1, 2, .Address 0, 3, ⟨5, true⟩, 10, 1⟩]
        (fun j => if j = .Address 0 then [order_id .Sell (.Address 0) 3 10 1] else [])
        (fun _ _ => 100)
        (fun i a => if i = Identity.Address 0 ∧ a = 2 then 5 else 0))
      (.Address 0) 2 ⟨7, true⟩ 3 10 1
      ⟨order_id .Sell (.Address 0) 3 10 1, 2, .Address 0, 3, ⟨5, true⟩, 10, 1⟩
      (by decide) (by decide) (by decide) (by decide)⟩

/-- Counterexample to C4 as stated: on a registered market, a buy of
magnitude 5 at price 3 (required escrow 5 * 3 / 10^0 = 15 quote units)
that immediately nets against the caller's own resting sell order leaves
the caller's external quote balance unchanged (the settlement pays the
caller back as seller), so the balance does not decrease by the required
amount. -/
theorem open_escrow_decrease_counterexample :
    ∃ st', open_order (testState
        [⟨order_id .Sell (.Address 0) 3 10 1, 2, .Address 0, 3, ⟨5, true⟩, 10, 1⟩]
        (fun j => if j = .Address 0 then [order_id .Sell (.Address 0) 3 10 1] else [])
        (fun _ _ => 100)
        (fun i a => if i = Identity.Address 0 ∧ a = 2 then 5 else 0))
        (.Address 0) 2 ⟨5, false⟩ 3 11 1 = .ok st' ∧
      market_exists (testState
        [⟨order_id .Sell (.Address 0) 3 10 1, 2, .Address 0, 3, ⟨5, true⟩, 10, 1⟩]
        (fun j => if j = .Address 0 then [order_id .Sell (.Address 0) 3 10 1] else [])
        (fun _ _ => 100)
        (fun i a => if i = Identity.Address 0 ∧ a = 2 then 5 else 0)) 2 = true ∧
      ¬ st'.wallet (Identity.Address 0) 1 =
          (testState
            [⟨order_id .Sell (.Address 0) 3 10 1, 2, .Address 0, 3, ⟨5, true⟩, 10, 1⟩]
            (fun j => if j = .Address 0 then [order_id .Sell (.Address 0) 3 10 1] else [])
            (fun _ _ => 100)
            (fun i a => if i = Identity.Address 0 ∧ a = 2 then 5 else 0)).wallet
            (Identity.Address 0) 1 - (5 : Nat) * 3 / 10 ^ (0 : Nat) :=
  ⟨_, rfl, rfl, by decide⟩

/-- C4 (amended): for every open_order call on a registered market that does
not immediately net against an opposite-signed resting order of the caller
(it merges or inserts), the engine requires exactly the formula amount —
failing with InsufficientBalance when the caller's balance cannot cover it —
and on success escrows exactly that amount: for a sell, magnitude units of
the base asset; for a buy, magnitude * price / 10^PRICE_DECIMALS (truncating)
units of the quote asset; the caller's external balance of the escrowed
asset decreases by exactly that amount. -/
theorem open_escrow_exact {st : State} {caller : Identity} {baseAsset : Nat}
    {size : SignedAmount} {price bh oh : Nat}
    (hm : market_exists st baseAsset = true) (hz : ¬ size.magnitude = 0)
    (hnet : ¬ order_by_id st
        (order_id (orderTypeOf size) caller price bh oh) = none ∨
      findCounter st caller baseAsset price size.negative = none) :
    (¬ requiredAmount st.config size price ≤
        st.wallet caller (requiredAsset st.config baseAsset size) →
      open_order st caller baseAsset size price bh oh =
        .error .InsufficientBalance) ∧
    (requiredAmount st.config size price ≤
        st.wallet caller (requiredAsset st.config baseAsset size) →
      ∃ st', open_order st caller baseAsset size price bh oh = .ok st' ∧
        (size.negative = true →
          st'.wallet caller baseAsset =
            st.wallet caller baseAsset - size.magnitude ∧
          st'.held caller baseAsset =
            st.held caller baseAsset + size.magnitude) ∧
        (size.negative = false →
          st'.wallet caller st.config.quoteAsset =
            st.wallet caller st.config.quoteAsset -
              size.magnitude * price / 10 ^ st.config.priceDecimals ∧
          st'.held caller st.config.quoteAsset =
            st.held caller st.config.quoteAsset +
              size.magnitude * price / 10 ^ st.config.priceDecimals)) := by
  constructor
  · intro hw
    simp only [open_order, if_pos hm, if_neg hz, if_neg hw]
  · intro hw
    have hpool : ∀ st' : State, st'.wallet = subAt st.wallet caller
        (requiredAsset st.config baseAsset size)
        (requiredAmount st.config size price) →
        st'.held = addAt st.held caller
          (requiredAsset st.config baseAsset size)
          (requiredAmount st.config size price) →
        (size.negative = true →
          st'.wallet caller baseAsset =
            st.wallet caller baseAsset - size.magnitude ∧
          st'.held caller baseAsset =
            st.held caller baseAsset + size.magnitude) ∧
        (size.negative = false →
          st'.wallet caller st.config.quoteAsset =
            st.wallet caller st.config.quoteAsset -
              size.magnitude * price / 10 ^ st.config.priceDecimals ∧
          st'.held caller st.config.quoteAsset =
            st.held caller st.config.quoteAsset +
              size.magnitude * price / 10 ^ st.config.priceDecimals) := by
      intro st' hwal hheld
      constructor
      · intro hneg
        rw [hwal, hheld, subAt_apply, addAt_apply]
        simp [requiredAsset, requiredAmount, hneg]
      · intro hneg
        rw [hwal, hheld, subAt_apply, addAt_apply]
        simp [requiredAsset, requiredAmount, hneg]
    rcases hmg : order_by_id st (order_id (orderTypeOf size) caller price bh oh)
        with _ | old
    · rcases hnet with hnet | hfc
      · exact absurd hmg hnet
      · refine ⟨_, open_order_eq_insert hm hz hw hmg hfc, ?_⟩
        exact hpool _ rfl rfl
    · refine ⟨_, open_order_eq_merge hm hz hw hmg, ?_⟩
      exact hpool _ rfl rfl

/-- Witness for C4 (amended): a fresh sell of magnitude 5 on an empty book
moves exactly 5 base units from the caller's external balance into escrow. -/
theorem open_escrow_exact_witness :
    (market_exists (testState [] (fun _ => []) (fun _ _ => 100) (fun _ _ => 0))
      2 = true) ∧
    (¬ (5 : Nat) = 0) ∧
    ((¬ requiredAmount testConfig ⟨5, true⟩ 3 ≤
        (testState [] (fun _ => []) (fun _ _ => 100) (fun _ _ => 0)).wallet
          (.Address 0) (requiredAsset testConfig 2 ⟨5, true⟩) →
      open_order (testState [] (fun _ => []) (fun _ _ => 100) (fun _ _ => 0))
        (.Address 0) 2 ⟨5, true⟩ 3 10 1 = .error .InsufficientBalance) ∧
    (requiredAmount testConfig ⟨5, true⟩ 3 ≤
        (testState [] (fun _ => []) (fun _ _ => 100) (fun _ _ => 0)).wallet
          (.Address 0) (requiredAsset testConfig 2 ⟨5, true⟩) →
      ∃ st', open_order (testState [] (fun _ => []) (fun _ _ => 100)
          (fun _ _ => 0)) (.Address 0) 2 ⟨5, true⟩ 3 10 1 = .ok st' ∧
        ((⟨5, true⟩ : SignedAmount).negative = true →
          st'.wallet (.Address 0) 2 = 100 - 5 ∧
          st'.held (.Address 0) 2 = 0 + 5) ∧
        ((⟨5, true⟩ : SignedAmount).negative = false →
          st'.wallet (.Address 0) 1 = 100 - 5 * 3 / 10 ^ (0 : Nat) ∧
          st'.held (.Address 0) 1 = 0 + 5 * 3 / 10 ^ (0 : Nat)))) :=
  ⟨by decide, by decide,
    @open_escrow_exact
      (testState [] (fun _ => []) (fun _ _ => 100) (fun _ _ => 0))
      (.Address 0) 2 ⟨5, true⟩ 3 10 1
      (by decide) (by decide) (Or.inr rfl)⟩

/-- Counterexample to C7 as stated: opening an order that merges into an
existing stored order and then cancelling the resulting id refunds the whole
merged escrow, so the owner's external balance ends above its pre-open
value (105 ≠ 100 here) and the pre-existing order is gone. -/
theorem open_cancel_counterexample :
    ∃ st1 st2, open_order (testState
        [⟨order_id .Sell (.Address 0) 3 10 1, 2, .Address 0, 3, ⟨5, true⟩, 10, 1⟩]
        (fun j => if j = .Address 0 then [order_id .Sell (.Address 0) 3 10 1] else [])
        (fun _ _ => 100)
        (fun i a => if i = Identity.Address 0 ∧ a = 2 then 5 else 0))
        (.Address 0) 2 ⟨7, true⟩ 3 10 1 = .ok st1 ∧
      cancel_order st1 (.Address 0) (order_id .Sell (.Address 0) 3 10 1) =
        .ok st2 ∧
      ¬ st2.wallet (Identity.Address 0) 2 =
        (testState
          [⟨order_id .Sell (.Address 0) 3 10 1, 2, .Address 0, 3, ⟨5, true⟩, 10, 1⟩]
          (fun j => if j = .Address 0 then [order_id .Sell (.Address 0) 3 10 1] else [])
          (fun _ _ => 100)
          (fun i a => if i = Identity.Address 0 ∧ a = 2 then 5 else 0)).wallet
          (Identity.Address 0) 2 :=
  ⟨_, _, rfl, rfl, by decide⟩

/-- C7 (amended): for every engine state and every open_order call that
inserts a fresh order — the derived id is not already stored, the caller has
no opposite-signed resting order at that price on that market, and the id is
not in the trader's index — immediately cancelling the resulting id restores
the owner's external, free-escrow and order-escrow balances to exactly their
pre-open values and removes the order from storage and from the trader's
index (the full escrowed amount, recomputed from the stored size and price
exactly as held, is released back). -/
theorem open_cancel_roundtrip {st : State} {caller : Identity}
    {baseAsset : Nat} {size : SignedAmount} {price bh oh : Nat}
    (hm : market_exists st baseAsset = true) (hz : ¬ size.magnitude = 0)
    (hw : requiredAmount st.config size price ≤
      st.wallet caller (requiredAsset st.config baseAsset size))
    (hmg : order_by_id st (order_id (orderTypeOf size) caller price bh oh) = none)
    (hfc : findCounter st caller baseAsset price size.negative = none)
    (hidx : order_id (orderTypeOf size) caller price bh oh ∉ st.index caller) :
    ∃ st1 st2, open_order st caller baseAsset size price bh oh = .ok st1 ∧
      cancel_order st1 caller
        (order_id (orderTypeOf size) caller price bh oh) = .ok st2 ∧
      (∀ a, st2.wallet caller a = st.wallet caller a) ∧
      (∀ a, st2.escrow caller a = st.escrow caller a) ∧
      (∀ a, st2.held caller a = st.held caller a) ∧
      st2.orders = st.orders ∧
      (∀ j, st2.index j = st.index j) := by
  have hall : ∀ p ∈ st.orders,
      ¬ p.id = order_id (orderTypeOf size) caller price bh oh := by
    intro p hp
    have := List.find?_eq_none.mp hmg p hp
    simpa using this
  have hlook1 : order_by_id
      (openInsert (attach st caller (requiredAsset st.config baseAsset size)
        (requiredAmount st.config size price)) caller baseAsset size price
        (order_id (orderTypeOf size) caller price bh oh) bh oh)
      (order_id (orderTypeOf size) caller price bh oh) =
      some ⟨order_id (orderTypeOf size) caller price bh oh, baseAsset, caller,
        price, size, bh, oh⟩ := by
    show (st.orders ++ ([⟨order_id (orderTypeOf size) caller price bh oh,
      baseAsset, caller, price, size, bh, oh⟩] : List Order)).find?
      (fun p => p.id = order_id (orderTypeOf size) caller price bh oh) =
      some ⟨order_id (orderTypeOf size) caller price bh oh, baseAsset, caller,
        price, size, bh, oh⟩
    exact find?_id_append rfl hmg
  have hheld1 : requiredAmount st.config size price ≤
      (openInsert (attach st caller (requiredAsset st.config baseAsset size)
        (requiredAmount st.config size price)) caller baseAsset size price
        (order_id (orderTypeOf size) caller price bh oh) bh oh).held caller
      (requiredAsset st.config baseAsset size) := by
    show requiredAmount st.config size price ≤
      addAt st.held caller (requiredAsset st.config baseAsset size)
        (requiredAmount st.config size price) caller
        (requiredAsset st.config baseAsset size)
    rw [addAt_apply]
    simp
  refine ⟨_, _, open_order_eq_insert hm hz hw hmg hfc,
    cancel_order_eq_ok hlook1 rfl hheld1, ?_, fun a => rfl, ?_, ?_, ?_⟩
  · intro a
    show addAt (subAt st.wallet caller (requiredAsset st.config baseAsset size)
        (requiredAmount st.config size price)) caller
        (requiredAsset st.config baseAsset size)
        (requiredAmount st.config size price) caller a = st.wallet caller a
    rw [addAt_apply, subAt_apply]
    by_cases ha : a = requiredAsset st.config baseAsset size
    · subst ha
      rw [if_pos ⟨rfl, rfl⟩]
      omega
    · rw [if_neg (fun hc => ha hc.2)]
      omega
  · intro a
    show subAt (addAt st.held caller (requiredAsset st.config baseAsset size)
        (requiredAmount st.config size price)) caller
        (requiredAsset st.config baseAsset size)
        (requiredAmount st.config size price) caller a = st.held caller a
    rw [subAt_apply, addAt_apply]
    by_cases ha : a = requiredAsset st.config baseAsset size
    · subst ha
      rw [if_pos ⟨rfl, rfl⟩]
      omega
    · rw [if_neg (fun hc => ha hc.2)]
      omega
  · show (st.orders ++ ([⟨order_id (orderTypeOf size) caller price bh oh,
      baseAsset, caller, price, size, bh, oh⟩] : List Order)).filter
      (fun p => p.id ≠ order_id (orderTypeOf size) caller price bh oh) =
      st.orders
    rw [List.filter_append]
    have h1 : st.orders.filter
        (fun p => p.id ≠ order_id (orderTypeOf size) caller price bh oh) =
        st.orders := by
      apply List.filter_eq_self.mpr
      intro p hp
      simpa using hall p hp
    have h2 : ([⟨order_id (orderTypeOf size) caller price bh oh,
        baseAsset, caller, price, size, bh, oh⟩] : List Order).filter
        (fun p => p.id ≠ order_id (orderTypeOf size) caller price bh oh) =
        [] := by
      simp
    rw [h1, h2, List.append_nil]
  · intro j
    show (if j = caller then ((if j = caller then st.index j ++
        [order_id (orderTypeOf size) caller price bh oh] else st.index j)).filter
        (fun x => x ≠ order_id (orderTypeOf size) caller price bh oh)
      else (if j = caller then st.index j ++
        [order_id (orderTypeOf size) caller price bh oh] else st.index j)) =
      st.index j
    by_cases hj : j = caller
    · rw [if_pos hj, if_pos hj, List.filter_append]
      have h1 : (st.index j).filter
          (fun x => x ≠ order_id (orderTypeOf size) caller price bh oh) =
          st.index j := by
        apply List.filter_eq_self.mpr
        intro x hx
        subst hj
        simp only [decide_eq_true_eq, ne_eq]
        intro hc
        exact hidx (hc ▸ hx)
      have h2 : ([order_id (orderTypeOf size) caller price bh oh] : List Nat).filter
          (fun x => x ≠ order_id (orderTypeOf size) caller price bh oh) = [] := by
        simp
      rw [h1, h2, List.append_nil]
    · rw [if_neg hj, if_neg hj]

/-- Witness for C7 (amended): a fresh sell of magnitude 5 on an empty book,
opened and immediately cancelled, restores the caller's balances exactly. -/
theorem open_cancel_roundtrip_witness :
    (market_exists (testState [] (fun _ => []) (fun _ _ => 100) (fun _ _ => 0))
      2 = true) ∧
    (order_by_id (testState [] (fun _ => []) (fun _ _ => 100) (fun _ _ => 0))
      (order_id (orderTypeOf ⟨5, true⟩) (.Address 0) 3 10 1) = none) ∧
    (∃ st1 st2, open_order (testState [] (fun _ => []) (fun _ _ => 100)
        (fun _ _ => 0)) (.Address 0) 2 ⟨5, true⟩ 3 10 1 = .ok st1 ∧
      cancel_order st1 (.Address 0)
        (order_id (orderTypeOf ⟨5, true⟩) (.Address 0) 3 10 1) = .ok st2 ∧
      (∀ a, st2.wallet (.Address 0) a =
        (testState [] (fun _ => []) (fun _ _ => 100) (fun _ _ => 0)).wallet
          (.Address 0) a) ∧
      (∀ a, st2.escrow (.Address 0) a =
        (testState [] (fun _ => []) (fun _ _ => 100) (fun _ _ => 0)).escrow
          (.Address 0) a) ∧
      (∀ a, st2.held (.Address 0) a =
        (testState [] (fun _ => []) (fun _ _ => 100) (fun _ _ => 0)).held
          (.Address 0) a) ∧
      st2.orders = (testState [] (fun _ => []) (fun _ _ => 100)
        (fun _ _ => 0)).orders ∧
      (∀ j, st2.index j = (testState [] (fun _ => []) (fun _ _ => 100)
        (fun _ _ => 0)).index j)) :=
  ⟨by decide, rfl,
    @open_cancel_roundtrip
      (testState [] (fun _ => []) (fun _ _ => 100) (fun _ _ => 0))
      (.Address 0) 2 ⟨5, true⟩ 3 10 1
      (by decide) (by decide) (by decide) rfl rfl (by decide)⟩

/-- C2: For every two stored orders on the same market with exactly equal
magnitudes and opposite signs, match_orders on them succeeds, removes both
orders from storage and from both traders' indices, transfers the
base-asset amount (the common magnitude) from the seller's order escrow to
the buyer's external balance, and transfers the quote-asset amount
(magnitude * trade_price / 10^PRICE_DECIMALS, truncating) from the buyer's
order escrow to the seller's external balance. -/
theorem full_match_removal {st : State} {idA idB : Nat}
    {oA oB seller buyer : Order}
    (hlA : order_by_id st idA = some oA) (hlB : order_by_id st idB = some oB)
    (hasset : oA.base_asset = oB.base_asset)
    (hside : ¬ oA.base_size.negative = oB.base_size.negative)
    (hseller : seller = if oA.base_size.negative then oA else oB)
    (hbuyer : buyer = if oA.base_size.negative then oB else oA)
    (hmag : oA.base_size.magnitude = oB.base_size.magnitude)
    (hquote : ¬ seller.base_asset = st.config.quoteAsset)
    (hs1 : seller.base_size.magnitude ≤ st.held seller.owner seller.base_asset)
    (hs2 : seller.base_size.magnitude * tradePrice oA oB /
        10 ^ st.config.priceDecimals ≤
      st.held buyer.owner st.config.quoteAsset) :
    ∃ st', match_orders st idA idB = .ok st' ∧
      order_by_id st' idA = none ∧ order_by_id st' idB = none ∧
      idA ∉ st'.index oA.owner ∧ idB ∉ st'.index oB.owner ∧
      st'.wallet buyer.owner seller.base_asset =
        st.wallet buyer.owner seller.base_asset + seller.base_size.magnitude ∧
      st'.wallet seller.owner st.config.quoteAsset =
        st.wallet seller.owner st.config.quoteAsset +
          seller.base_size.magnitude * tradePrice oA oB /
            10 ^ st.config.priceDecimals ∧
      st'.held seller.owner seller.base_asset =
        st.held seller.owner seller.base_asset - seller.base_size.magnitude ∧
      st'.held buyer.owner st.config.quoteAsset =
        st.held buyer.owner st.config.quoteAsset -
          seller.base_size.magnitude * tradePrice oA oB /
            10 ^ st.config.priceDecimals := by
  have hidA := order_by_id_eq hlA
  have hidB := order_by_id_eq hlB
  by_cases hAneg : oA.base_size.negative = true
  · have hs : seller = oA := by rw [hseller, if_pos hAneg]
    have hb : buyer = oB := by rw [hbuyer, if_pos hAneg]
    subst hs hb
    have hEq := match_orders_eq_fst_sell hlA hlB hasset hside hAneg
    obtain ⟨st', hok, hn1, hn2, hi1, hi2, hw1, hw2, hh1, hh2⟩ :=
      matchStep_full (t := tradePrice seller buyer) hmag hquote hs1 hs2
    refine ⟨st', by rw [hEq]; exact hok, ?_, ?_, ?_, ?_, hw1, hw2, hh1, hh2⟩
    · rw [← hidA]
      exact hn1
    · rw [← hidB]
      exact hn2
    · rw [← hidA]
      exact hi1
    · rw [← hidB]
      exact hi2
  · have hAn : oA.base_size.negative = false := by
      cases hx : oA.base_size.negative
      · rfl
      · exact absurd hx hAneg
    have hs : seller = oB := by rw [hseller, hAn]; rfl
    have hb : buyer = oA := by rw [hbuyer, hAn]; rfl
    subst hs hb
    have hEq := match_orders_eq_fst_buy hlA hlB hasset hside hAn
    obtain ⟨st', hok, hn1, hn2, hi1, hi2, hw1, hw2, hh1, hh2⟩ :=
      matchStep_full (t := tradePrice buyer seller) hmag.symm hquote hs1 hs2
    refine ⟨st', by rw [hEq]; exact hok, ?_, ?_, ?_, ?_, hw1, hw2, hh1, hh2⟩
    · rw [← hidA]
      exact hn2
    · rw [← hidB]
      exact hn1
    · rw [← hidA]
      exact hi2
    · rw [← hidB]
      exact hi1

/-- Witness for C2: a sell of 5 and a buy of 5 at price 3 fully match; both
orders disappear and the settlement amounts 5 (base) and 15 (quote) move to
the respective external balances. -/
theorem full_match_removal_witness :
    (order_by_id (twoOrderState 5 5) 90 = some (sellO 5) ∧
      order_by_id (twoOrderState 5 5) 91 = some (buyO 5) ∧
      (sellO 5).base_size.magnitude = (buyO 5).base_size.magnitude) ∧
    (∃ st', match_orders (twoOrderState 5 5) 90 91 = .ok st' ∧
      order_by_id st' 90 = none ∧ order_by_id st' 91 = none ∧
      90 ∉ st'.index (sellO 5).owner ∧ 91 ∉ st'.index (buyO 5).owner ∧
      st'.wallet (buyO 5).owner (sellO 5).base_asset =
        (twoOrderState 5 5).wallet (buyO 5).owner (sellO 5).base_asset +
          (sellO 5).base_size.magnitude ∧
      st'.wallet (sellO 5).owner (twoOrderState 5 5).config.quoteAsset =
        (twoOrderState 5 5).wallet (sellO 5).owner
          (twoOrderState 5 5).config.quoteAsset +
          (sellO 5).base_size.magnitude * tradePrice (sellO 5) (buyO 5) /
            10 ^ (twoOrderState 5 5).config.priceDecimals ∧
      st'.held (sellO 5).owner (sellO 5).base_asset =
        (twoOrderState 5 5).held (sellO 5).owner (sellO 5).base_asset -
          (sellO 5).base_size.magnitude ∧
      st'.held (buyO 5).owner (twoOrderState 5 5).config.quoteAsset =
        (twoOrderState 5 5).held (buyO 5).owner
          (twoOrderState 5 5).config.quoteAsset -
          (sellO 5).base_size.magnitude * tradePrice (sellO 5) (buyO 5) /
            10 ^ (twoOrderState 5 5).config.priceDecimals) :=
  ⟨⟨rfl, rfl, rfl⟩,
    @full_match_removal (twoOrderState 5 5) 90 91 (sellO 5) (buyO 5)
      (sellO 5) (buyO 5) rfl rfl rfl (by decide) rfl rfl rfl (by decide)
      (by decide) (by decide)⟩

/-- C5: For every two matched orders of unequal magnitude, the order with
the larger magnitude remains stored after the match with remaining magnitude
equal to the difference, with its sign, price, id and owner unchanged (only
the magnitude field changes), while the order with the smaller magnitude is
removed from storage and from its trader's index. -/
theorem partial_match_persistence {st : State} {idA idB : Nat}
    {oA oB seller buyer : Order}
    (hlA : order_by_id st idA = some oA) (hlB : order_by_id st idB = some oB)
    (hasset : oA.base_asset = oB.base_asset)
    (hside : ¬ oA.base_size.negative = oB.base_size.negative)
    (hseller : seller = if oA.base_size.negative then oA else oB)
    (hbuyer : buyer = if oA.base_size.negative then oB else oA)
    (hdiff : ¬ oA.base_size.magnitude = oB.base_size.magnitude)
    (hquote : ¬ seller.base_asset = st.config.quoteAsset)
    (hs1 : min seller.base_size.magnitude buyer.base_size.magnitude ≤
      st.held seller.owner seller.base_asset)
    (hs2 : min seller.base_size.magnitude buyer.base_size.magnitude *
        tradePrice oA oB / 10 ^ st.config.priceDecimals ≤
      st.held buyer.owner st.config.quoteAsset) :
    ∃ st', match_orders st idA idB = .ok st' ∧
      (seller.base_size.magnitude < buyer.base_size.magnitude →
        order_by_id st' buyer.id = some { buyer with base_size :=
          { buyer.base_size with magnitude :=
            buyer.base_size.magnitude - seller.base_size.magnitude } } ∧
        order_by_id st' seller.id = none ∧
        seller.id ∉ st'.index seller.owner) ∧
      (buyer.base_size.magnitude < seller.base_size.magnitude →
        order_by_id st' seller.id = some { seller with base_size :=
          { seller.base_size with magnitude :=
            seller.base_size.magnitude - buyer.base_size.magnitude } } ∧
        order_by_id st' buyer.id = none ∧
        buyer.id ∉ st'.index buyer.owner) := by
  have hidA := order_by_id_eq hlA
  have hidB := order_by_id_eq hlB
  have hAB : ¬ idA = idB := by
    intro h
    rw [h, hlB] at hlA
    injection hlA with h2
    subst h2
    exact hside rfl
  by_cases hAneg : oA.base_size.negative = true
  · have hs : seller = oA := by rw [hseller, if_pos hAneg]
    have hb : buyer = oB := by rw [hbuyer, if_pos hAneg]
    subst hs hb
    have hEq := match_orders_eq_fst_sell hlA hlB hasset hside hAneg
    have hne : ¬ seller.id = buyer.id := by
      rw [hidA, hidB]
      exact hAB
    by_cases hlt : seller.base_size.magnitude < buyer.base_size.magnitude
    · have hminq : min seller.base_size.magnitude buyer.base_size.magnitude =
          seller.base_size.magnitude := by omega
      rw [hminq] at hs1 hs2
      obtain ⟨st', hok, hkeep, hgone, hidx⟩ :=
        matchStep_partial_buyer (t := tradePrice seller buyer)
          (by rw [hidB]; exact hlB) (fun hc => hne hc.symm) hlt hquote hs1 hs2
      exact ⟨st', by rw [hEq]; exact hok, fun h => ⟨hkeep, hgone, hidx⟩,
        fun h => absurd h (by omega)⟩
    · have hgt : buyer.base_size.magnitude < seller.base_size.magnitude := by
        omega
      have hminq : min seller.base_size.magnitude buyer.base_size.magnitude =
          buyer.base_size.magnitude := by omega
      rw [hminq] at hs1 hs2
      obtain ⟨st', hok, hkeep, hgone, hidx⟩ :=
        matchStep_partial_seller (t := tradePrice seller buyer)
          (by rw [hidA]; exact hlA) hne hgt hquote hs1 hs2
      exact ⟨st', by rw [hEq]; exact hok, fun h => absurd h (by omega),
        fun h => ⟨hkeep, hgone, hidx⟩⟩
  · have hAn : oA.base_size.negative = false := by
      cases hx : oA.base_size.negative
      · rfl
      · exact absurd hx hAneg
    have hs : seller = oB := by rw [hseller, hAn]; rfl
    have hb : buyer = oA := by rw [hbuyer, hAn]; rfl
    subst hs hb
    have hEq := match_orders_eq_fst_buy hlA hlB hasset hside hAn
    have hne : ¬ seller.id = buyer.id := by
      rw [hidA, hidB]
      exact fun hc => hAB hc.symm
    by_cases hlt : seller.base_size.magnitude < buyer.base_size.magnitude
    · have hminq : min seller.base_size.magnitude buyer.base_size.magnitude =
          seller.base_size.magnitude := by omega
      rw [hminq] at hs1 hs2
      obtain ⟨st', hok, hkeep, hgone, hidx⟩ :=
        matchStep_partial_buyer (t := tradePrice buyer seller)
          (by rw [hidA]; exact hlA) (fun hc => hne hc.symm) hlt hquote hs1 hs2
      exact ⟨st', by rw [hEq]; exact hok, fun h => ⟨hkeep, hgone, hidx⟩,
        fun h => absurd h (by omega)⟩
    · have hgt : buyer.base_size.magnitude < seller.base_size.magnitude := by
        omega
      have hminq : min seller.base_size.magnitude buyer.base_size.magnitude =
          buyer.base_size.magnitude := by omega
      rw [hminq] at hs1 hs2
      obtain ⟨st', hok, hkeep, hgone, hidx⟩ :=
        matchStep_partial_seller (t := tradePrice buyer seller)
          (by rw [hidB]; exact hlB) hne hgt hquote hs1 hs2
      exact ⟨st', by rw [hEq]; exact hok, fun h => absurd h (by omega),
        fun h => ⟨hkeep, hgone, hidx⟩⟩

/-- Witness for C5: a sell of 7 matched with a buy of 5 at price 3 leaves
the sell resting with magnitude 2 and removes the buy. -/
theorem partial_match_persistence_witness :
    (order_by_id (twoOrderState 7 5) 90 = some (sellO 7) ∧
      order_by_id (twoOrderState 7 5) 91 = some (buyO 5) ∧
      ¬ (sellO 7).base_size.magnitude = (buyO 5).base_size.magnitude) ∧
    (∃ st', match_orders (twoOrderState 7 5) 90 91 = .ok st' ∧
      ((sellO 7).base_size.magnitude < (buyO 5).base_size.magnitude →
        order_by_id st' (buyO 5).id = some { buyO 5 with base_size :=
          { (buyO 5).base_size with magnitude :=
            (buyO 5).base_size.magnitude - (sellO 7).base_size.magnitude } } ∧
        order_by_id st' (sellO 7).id = none ∧
        (sellO 7).id ∉ st'.index (sellO 7).owner) ∧
      ((buyO 5).base_size.magnitude < (sellO 7).base_size.magnitude →
        order_by_id st' (sellO 7).id = some { sellO 7 with base_size :=
          { (sellO 7).base_size with magnitude :=
            (sellO 7).base_size.magnitude - (buyO 5).base_size.magnitude } } ∧
        order_by_id st' (buyO 5).id = none ∧
        (buyO 5).id ∉ st'.index (buyO 5).owner)) :=
  ⟨⟨rfl, rfl, by decide⟩,
    @partial_match_persistence (twoOrderState 7 5) 90 91 (sellO 7) (buyO 5)
      (sellO 7) (buyO 5) rfl rfl rfl (by decide) rfl rfl (by decide)
      (by decide) (by decide) (by decide)⟩

/-- C10: For a trader whose index holds exactly one resting order, calling
open_order with an opposite-signed size at the same price and market does
not insert a second resting order: the incoming order nets immediately
against the caller's own resting order inside the call (self-trading), the
settlement transfers execute against the caller's own balances, and when the
incoming magnitude exceeds the resting magnitude the resting order is
removed and only the residual incoming magnitude remains stored, carrying
the incoming order's sign and id — the position flips within one call. -/
theorem selfmatch_flip {st : State} {caller : Identity} {baseAsset : Nat}
    {size : SignedAmount} {price bh oh rid : Nat} {rest : Order}
    (hm : market_exists st baseAsset = true)
    (hidx : st.index caller = [rid])
    (hlr : order_by_id st rid = some rest)
    (hown : rest.owner = caller)
    (hba : rest.base_asset = baseAsset) (hbp : rest.base_price = price)
    (hopp : ¬ rest.base_size.negative = size.negative)
    (hmg : order_by_id st
      (order_id (orderTypeOf size) caller price bh oh) = none)
    (hgt : rest.base_size.magnitude < size.magnitude)
    (hbq : ¬ baseAsset = st.config.quoteAsset)
    (hw : requiredAmount st.config size price ≤
      st.wallet caller (requiredAsset st.config baseAsset size))
    (hesc : if size.negative then
        rest.base_size.magnitude * price / 10 ^ st.config.priceDecimals ≤
          st.held caller st.config.quoteAsset
      else rest.base_size.magnitude ≤ st.held caller baseAsset) :
    ∃ st', open_order st caller baseAsset size price bh oh = .ok st' ∧
      order_by_id st' rid = none ∧
      order_by_id st' (order_id (orderTypeOf size) caller price bh oh) =
        some ⟨order_id (orderTypeOf size) caller price bh oh, baseAsset,
          caller, price, ⟨size.magnitude - rest.base_size.magnitude,
            size.negative⟩, bh, oh⟩ ∧
      st'.index caller = [order_id (orderTypeOf size) caller price bh oh] := by
  have hz : ¬ size.magnitude = 0 := by omega
  have hrid := order_by_id_eq hlr
  have hrmem := order_by_id_mem hlr
  have hridne : ¬ rid = order_id (orderTypeOf size) caller price bh oh := by
    intro hc
    have := List.find?_eq_none.mp hmg rest hrmem
    simp only [decide_eq_true_eq] at this
    exact this (hrid.trans hc)
  have hfc : findCounter st caller baseAsset price size.negative = some rest := by
    unfold findCounter
    rw [hidx, List.findSome?_cons, hlr]
    simp [hba, hbp, hopp]
  have hstep := open_order_eq_net hm hz hw hmg hfc
  have hminq : min rest.base_size.magnitude size.magnitude =
      rest.base_size.magnitude := by omega
  rw [hminq] at hstep
  have hfinish : ∀ st2 : State,
      open_order st caller baseAsset size price bh oh = .ok { applyFill st2 rest
        rest.base_size.magnitude with
        orders := (applyFill st2 rest rest.base_size.magnitude).orders ++
          [⟨order_id (orderTypeOf size) caller price bh oh, baseAsset, caller,
            price, ⟨size.magnitude - rest.base_size.magnitude, size.negative⟩,
            bh, oh⟩]
        index := fun j => if j = caller then (applyFill st2 rest
            rest.base_size.magnitude).index j ++
            [order_id (orderTypeOf size) caller price bh oh]
          else (applyFill st2 rest rest.base_size.magnitude).index j } →
      st2.orders = st.orders →
      st2.index = st.index →
      ∃ st', open_order st caller baseAsset size price bh oh = .ok st' ∧
        order_by_id st' rid = none ∧
        order_by_id st' (order_id (orderTypeOf size) caller price bh oh) =
          some ⟨order_id (orderTypeOf size) caller price bh oh, baseAsset,
            caller, price, ⟨size.magnitude - rest.base_size.magnitude,
              size.negative⟩, bh, oh⟩ ∧
        st'.index caller = [order_id (orderTypeOf size) caller price bh oh] := by
    intro st2 hok ho hi
    rw [applyFill_remove (o := rest) (q := rest.base_size.magnitude)
      (Nat.le_refl _)] at hok
    refine ⟨_, hok, ?_, ?_, ?_⟩
    · apply List.find?_eq_none.mpr
      intro p hp
      rcases List.mem_append.1 hp with hp | hp
      · have := List.of_mem_filter hp
        simp only [decide_eq_true_eq, ne_eq] at this
        simp only [decide_eq_true_eq]
        rw [← hrid]
        exact this
      · simp only [List.mem_singleton] at hp
        subst hp
        simp only [decide_eq_true_eq]
        exact fun hc => hridne hc.symm
    · show ((st2.orders.filter (fun p => p.id ≠ rest.id)) ++
        ([⟨order_id (orderTypeOf size) caller price bh oh, baseAsset, caller,
          price, ⟨size.magnitude - rest.base_size.magnitude, size.negative⟩,
          bh, oh⟩] : List Order)).find? (fun o =>
            o.id = order_id (orderTypeOf size) caller price bh oh) =
        some ⟨order_id (orderTypeOf size) caller price bh oh, baseAsset,
          caller, price, ⟨size.magnitude - rest.base_size.magnitude,
            size.negative⟩, bh, oh⟩
      refine find?_id_append ?_ ?_
      · rfl
      · apply List.find?_eq_none.mpr
        intro p hp
        have hpmem := List.mem_of_mem_filter hp
        rw [ho] at hpmem
        have := List.find?_eq_none.mp hmg p hpmem
        simpa using this
    · show (if caller = caller then (if caller = rest.owner then
        (st2.index caller).filter (fun x => x ≠ rest.id) else st2.index caller) ++
        [order_id (orderTypeOf size) caller price bh oh]
        else _) = _
      rw [if_pos rfl, if_pos hown.symm, hi, hidx, hrid]
      simp
  by_cases hneg : size.negative = true
  · have hrA : requiredAsset st.config baseAsset size = baseAsset := by
      simp [requiredAsset, hneg]
    have hrM : requiredAmount st.config size price = size.magnitude := by
      simp [requiredAmount, hneg]
    rw [hrA, hrM] at hstep
    rw [hneg] at hesc
    simp only [if_true] at hesc
    have hso : (if size.negative then caller else rest.owner) = caller := by
      rw [hneg]
      rfl
    have hbo : (if size.negative then rest.owner else caller) = caller := by
      rw [hneg]
      exact hown
    have h1 : rest.base_size.magnitude ≤
        (attach st caller baseAsset size.magnitude).held caller baseAsset := by
      show rest.base_size.magnitude ≤
        addAt st.held caller baseAsset size.magnitude caller baseAsset
      rw [addAt_apply, if_pos ⟨rfl, rfl⟩]
      omega
    have h2 : rest.base_size.magnitude * price /
        10 ^ (attach st caller baseAsset size.magnitude).config.priceDecimals ≤
        subAt (attach st caller baseAsset size.magnitude).held caller baseAsset
          rest.base_size.magnitude caller
          (attach st caller baseAsset size.magnitude).config.quoteAsset := by
      show rest.base_size.magnitude * price / 10 ^ st.config.priceDecimals ≤
        subAt (addAt st.held caller baseAsset size.magnitude) caller baseAsset
          rest.base_size.magnitude caller st.config.quoteAsset
      rw [subAt_apply, if_neg (fun hc => hbq hc.2.symm), addAt_apply,
        if_neg (fun hc => hbq hc.2.symm)]
      omega
    have hsetl := @settle_eq_ok (attach st caller baseAsset size.magnitude)
      caller caller baseAsset rest.base_size.magnitude price h1 h2
    simp only [openNet, hso, hbo, hsetl, if_pos hgt] at hstep
    exact hfinish _ hstep rfl rfl
  · have hnegf : size.negative = false := by
      cases hx : size.negative
      · rfl
      · exact absurd hx hneg
    have hrA : requiredAsset st.config baseAsset size = st.config.quoteAsset := by
      simp [requiredAsset, hnegf]
    have hrM : requiredAmount st.config size price =
        size.magnitude * price / 10 ^ st.config.priceDecimals := by
      simp [requiredAmount, hnegf]
    rw [hrA, hrM] at hstep
    rw [hnegf] at hesc
    simp only [Bool.false_eq_true, if_false] at hesc
    have hso : (if size.negative then caller else rest.owner) = caller := by
      rw [hnegf]
      exact hown
    have hbo : (if size.negative then rest.owner else caller) = caller := by
      simp [hnegf]
    have h1 : rest.base_size.magnitude ≤
        (attach st caller st.config.quoteAsset
          (size.magnitude * price / 10 ^ st.config.priceDecimals)).held caller
          baseAsset := by
      show rest.base_size.magnitude ≤
        addAt st.held caller st.config.quoteAsset
          (size.magnitude * price / 10 ^ st.config.priceDecimals) caller baseAsset
      rw [addAt_apply, if_neg (fun hc => hbq hc.2)]
      omega
    have hqa : rest.base_size.magnitude * price / 10 ^ st.config.priceDecimals ≤
        size.magnitude * price / 10 ^ st.config.priceDecimals :=
      Nat.div_le_div_right (Nat.mul_le_mul_right price (Nat.le_of_lt hgt))
    have h2 : rest.base_size.magnitude * price /
        10 ^ (attach st caller st.config.quoteAsset
          (size.magnitude * price / 10 ^ st.config.priceDecimals)).config.priceDecimals ≤
        subAt (attach st caller st.config.quoteAsset
          (size.magnitude * price / 10 ^ st.config.priceDecimals)).held caller
          baseAsset rest.base_size.magnitude caller
          (attach st caller st.config.quoteAsset
            (size.magnitude * price / 10 ^ st.config.priceDecimals)).config.quoteAsset := by
      show rest.base_size.magnitude * price / 10 ^ st.config.priceDecimals ≤
        subAt (addAt st.held caller st.config.quoteAsset
          (size.magnitude * price / 10 ^ st.config.priceDecimals)) caller
          baseAsset rest.base_size.magnitude caller st.config.quoteAsset
      rw [subAt_apply, if_neg (fun hc => hbq hc.2.symm), addAt_apply,
        if_pos ⟨rfl, rfl⟩]
      omega
    have hsetl := @settle_eq_ok (attach st caller st.config.quoteAsset
      (size.magnitude * price / 10 ^ st.config.priceDecimals))
      caller caller baseAsset rest.base_size.magnitude price h1 h2
    simp only [openNet, hso, hbo, hsetl, if_pos hgt] at hstep
    exact hfinish _ hstep rfl rfl

/-- Witness for C10: a resting sell of 5 by address 0 and an incoming buy of
9 at the same price flips the position to a resting buy of 4 with the
incoming id. -/
theorem selfmatch_flip_witness :
    ((testState [sellO 5] (fun j => if j = .Address 0 then [90] else [])
        (fun _ _ => 100)
        (fun i a => if i = Identity.Address 0 ∧ a = 2 then 5 else 0)).index
        (Identity.Address 0) = [90] ∧
      order_by_id (testState [sellO 5]
        (fun j => if j = .Address 0 then [90] else []) (fun _ _ => 100)
        (fun i a => if i = Identity.Address 0 ∧ a = 2 then 5 else 0)) 90 =
        some (sellO 5) ∧
      (sellO 5).base_size.magnitude < (9 : Nat)) ∧
    (∃ st', open_order (testState [sellO 5]
        (fun j => if j = .Address 0 then [90] else []) (fun _ _ => 100)
        (fun i a => if i = Identity.Address 0 ∧ a = 2 then 5 else 0))
        (.Address 0) 2 ⟨9, false⟩ 3 11 3 = .ok st' ∧
      order_by_id st' 90 = none ∧
      order_by_id st'
        (order_id (orderTypeOf ⟨9, false⟩) (.Address 0) 3 11 3) =
        some ⟨order_id (orderTypeOf ⟨9, false⟩) (.Address 0) 3 11 3, 2,
          .Address 0, 3, ⟨9 - 5, false⟩, 11, 3⟩ ∧
      st'.index (.Address 0) =
        [order_id (orderTypeOf ⟨9, false⟩) (.Address 0) 3 11 3]) :=
  ⟨⟨rfl, rfl, by decide⟩,
    @selfmatch_flip (testState [sellO 5]
        (fun j => if j = .Address 0 then [90] else []) (fun _ _ => 100)
        (fun i a => if i = Identity.Address 0 ∧ a = 2 then 5 else 0))
      (.Address 0) 2 ⟨9, false⟩ 3 11 3 90 (sellO 5)
      (by decide) rfl rfl rfl rfl rfl (by decide) (by decide) (by decide)
      (by decide) (by decide) (by decide)⟩

/-- C6: For a trader with no resting orders who opens a single order of size
`s` at price `p` on a market and then opens the exact reverse order (equal
magnitude, opposite sign) at the same price with the matching asset
attached, both orders disappear (orders_by_trader becomes empty and
order_by_id of the first id returns none) and the trader's external
balances of both the base and the quote asset return to exactly their
values before either order was opened. -/
theorem cancel_by_reverse_order {st : State} {trader : Identity}
    {baseAsset : Nat} {s : SignedAmount} {price bh1 oh1 bh2 oh2 : Nat}
    (hm : market_exists st baseAsset = true)
    (hz : ¬ s.magnitude = 0)
    (hbq : ¬ baseAsset = st.config.quoteAsset)
    (hidx : st.index trader = [])
    (hids1 : order_by_id st
      (order_id (orderTypeOf s) trader price bh1 oh1) = none)
    (hids2 : order_by_id st
      (order_id (orderTypeOf ⟨s.magnitude, !s.negative⟩) trader price bh2 oh2)
      = none)
    (hw1 : requiredAmount st.config s price ≤
      st.wallet trader (requiredAsset st.config baseAsset s))
    (hw2 : requiredAmount st.config ⟨s.magnitude, !s.negative⟩ price ≤
      st.wallet trader
        (requiredAsset st.config baseAsset ⟨s.magnitude, !s.negative⟩)) :
    ∃ st1 st2,
      open_order st trader baseAsset s price bh1 oh1 = .ok st1 ∧
      open_order st1 trader baseAsset ⟨s.magnitude, !s.negative⟩ price bh2 oh2
        = .ok st2 ∧
      orders_by_trader st2 trader = [] ∧
      order_by_id st2 (order_id (orderTypeOf s) trader price bh1 oh1) = none ∧
      st2.wallet trader baseAsset = st.wallet trader baseAsset ∧
      st2.wallet trader st.config.quoteAsset =
        st.wallet trader st.config.quoteAsset := by
  have hfc1 : findCounter st trader baseAsset price s.negative = none := by
    unfold findCounter
    rw [hidx]
    rfl
  have hstep1 := open_order_eq_insert hm hz hw1 hids1 hfc1
  have htne : ¬ orderTypeOf s =
      orderTypeOf ⟨s.magnitude, !s.negative⟩ := by
    unfold orderTypeOf
    cases hx : s.negative <;> simp [hx]
  have hidne : ¬ order_id (orderTypeOf s) trader price bh1 oh1 =
      order_id (orderTypeOf ⟨s.magnitude, !s.negative⟩) trader price bh2 oh2 :=
    order_id_ne_of_type htne
  by_cases hneg : s.negative = true
  · have hrA1 : requiredAsset st.config baseAsset s = baseAsset := by
      simp [requiredAsset, hneg]
    have hrM1 : requiredAmount st.config s price = s.magnitude := by
      simp [requiredAmount, hneg]
    have hrA2 : requiredAsset st.config baseAsset ⟨s.magnitude, !s.negative⟩ =
        st.config.quoteAsset := by
      simp [requiredAsset, hneg]
    have hrM2 : requiredAmount st.config ⟨s.magnitude, !s.negative⟩ price =
        s.magnitude * price / 10 ^ st.config.priceDecimals := by
      simp [requiredAmount, hneg]
    rw [hrA1, hrM1] at hstep1 hw1
    rw [hrA2, hrM2] at hw2
    have hm2 : market_exists (openInsert (attach st trader baseAsset
        s.magnitude) trader baseAsset s price
        (order_id (orderTypeOf s) trader price bh1 oh1) bh1 oh1) baseAsset =
        true := hm
    have hz2 : ¬ (⟨s.magnitude, !s.negative⟩ : SignedAmount).magnitude = 0 := hz
    have hw2' : requiredAmount (openInsert (attach st trader baseAsset
        s.magnitude) trader baseAsset s price
        (order_id (orderTypeOf s) trader price bh1 oh1) bh1 oh1).config
        ⟨s.magnitude, !s.negative⟩ price ≤
        (openInsert (attach st trader baseAsset s.magnitude) trader baseAsset
          s price (order_id (orderTypeOf s) trader price bh1 oh1) bh1
          oh1).wallet trader
        (requiredAsset (openInsert (attach st trader baseAsset s.magnitude)
          trader baseAsset s price
          (order_id (orderTypeOf s) trader price bh1 oh1) bh1 oh1).config
          baseAsset ⟨s.magnitude, !s.negative⟩) := by
      show requiredAmount st.config ⟨s.magnitude, !s.negative⟩ price ≤
        subAt st.wallet trader baseAsset s.magnitude trader
          (requiredAsset st.config baseAsset ⟨s.magnitude, !s.negative⟩)
      rw [hrA2, hrM2, subAt_apply, if_neg (fun hc => hbq hc.2.symm)]
      omega
    have hlook1 : order_by_id (openInsert (attach st trader baseAsset
        s.magnitude) trader baseAsset s price
        (order_id (orderTypeOf s) trader price bh1 oh1) bh1 oh1)
        (order_id (orderTypeOf s) trader price bh1 oh1) =
        some ⟨order_id (orderTypeOf s) trader price bh1 oh1, baseAsset, trader,
          price, s, bh1, oh1⟩ := by
      show (st.orders ++ ([⟨order_id (orderTypeOf s) trader price bh1 oh1,
        baseAsset, trader, price, s, bh1, oh1⟩] : List Order)).find?
        (fun p => p.id = order_id (orderTypeOf s) trader price bh1 oh1) =
        some ⟨order_id (orderTypeOf s) trader price bh1 oh1, baseAsset, trader,
          price, s, bh1, oh1⟩
      exact find?_id_append rfl hids1
    have hmg2 : order_by_id (openInsert (attach st trader baseAsset
        s.magnitude) trader baseAsset s price
        (order_id (orderTypeOf s) trader price bh1 oh1) bh1 oh1)
        (order_id (orderTypeOf ⟨s.magnitude, !s.negative⟩) trader price bh2
          oh2) = none := by
      apply List.find?_eq_none.mpr
      intro p hp
      rcases List.mem_append.1 hp with hp | hp
      · have := List.find?_eq_none.mp hids2 p hp
        simpa using this
      · simp only [List.mem_singleton] at hp
        subst hp
        simp only [decide_eq_true_eq]
        exact hidne
    have hidx1 : (openInsert (attach st trader baseAsset s.magnitude) trader
        baseAsset s price (order_id (orderTypeOf s) trader price bh1 oh1) bh1
        oh1).index trader = [order_id (orderTypeOf s) trader price bh1 oh1] := by
      show (if trader = trader then st.index trader ++
        [order_id (orderTypeOf s) trader price bh1 oh1] else st.index trader) =
        [order_id (orderTypeOf s) trader price bh1 oh1]
      rw [if_pos rfl, hidx]
      rfl
    have hfc2 : findCounter (openInsert (attach st trader baseAsset
        s.magnitude) trader baseAsset s price
        (order_id (orderTypeOf s) trader price bh1 oh1) bh1 oh1) trader
        baseAsset price (⟨s.magnitude, !s.negative⟩ : SignedAmount).negative =
        some ⟨order_id (orderTypeOf s) trader price bh1 oh1, baseAsset, trader,
          price, s, bh1, oh1⟩ := by
      unfold findCounter
      rw [hidx1, List.findSome?_cons, hlook1]
      simp [hneg]
    have hstep2 := open_order_eq_net hm2 hz2 hw2' hmg2 hfc2
    have hrA2' : requiredAsset (openInsert (attach st trader baseAsset
        s.magnitude) trader baseAsset s price
        (order_id (orderTypeOf s) trader price bh1 oh1) bh1 oh1).config
        baseAsset ⟨s.magnitude, !s.negative⟩ = st.config.quoteAsset := hrA2
    have hrM2' : requiredAmount (openInsert (attach st trader baseAsset
        s.magnitude) trader baseAsset s price
        (order_id (orderTypeOf s) trader price bh1 oh1) bh1 oh1).config
        ⟨s.magnitude, !s.negative⟩ price =
        s.magnitude * price / 10 ^ st.config.priceDecimals := hrM2
    rw [hrA2', hrM2'] at hstep2
    have hminq : min (⟨order_id (orderTypeOf s) trader price bh1 oh1,
        baseAsset, trader, price, s, bh1, oh1⟩ : Order).base_size.magnitude
        (⟨s.magnitude, !s.negative⟩ : SignedAmount).magnitude = s.magnitude := by
      show min s.magnitude s.magnitude = s.magnitude
      exact Nat.min_self _
    rw [hminq] at hstep2
    have hso : (if (⟨s.magnitude, !s.negative⟩ : SignedAmount).negative then
        trader else (⟨order_id (orderTypeOf s) trader price bh1 oh1, baseAsset,
        trader, price, s, bh1, oh1⟩ : Order).owner) = trader := by
      simp [hneg]
    have hbo : (if (⟨s.magnitude, !s.negative⟩ : SignedAmount).negative then
        (⟨order_id (orderTypeOf s) trader price bh1 oh1, baseAsset, trader,
          price, s, bh1, oh1⟩ : Order).owner else trader) = trader := by
      simp [hneg]
    have h1 : s.magnitude ≤ (attach (openInsert (attach st trader baseAsset
        s.magnitude) trader baseAsset s price
        (order_id (orderTypeOf s) trader price bh1 oh1) bh1 oh1) trader
        st.config.quoteAsset
        (s.magnitude * price / 10 ^ st.config.priceDecimals)).held trader
        baseAsset := by
      show s.magnitude ≤ addAt (addAt st.held trader baseAsset s.magnitude)
        trader st.config.quoteAsset
        (s.magnitude * price / 10 ^ st.config.priceDecimals) trader baseAsset
      rw [addAt_apply, if_neg (fun hc => hbq hc.2), addAt_apply,
        if_pos ⟨rfl, rfl⟩]
      omega
    have h2 : s.magnitude * price / 10 ^ (attach (openInsert (attach st trader
        baseAsset s.magnitude) trader baseAsset s price
        (order_id (orderTypeOf s) trader price bh1 oh1) bh1 oh1) trader
        st.config.quoteAsset
        (s.magnitude * price / 10 ^ st.config.priceDecimals)).config.priceDecimals ≤
        subAt (attach (openInsert (attach st trader baseAsset s.magnitude)
          trader baseAsset s price
          (order_id (orderTypeOf s) trader price bh1 oh1) bh1 oh1) trader
          st.config.quoteAsset
          (s.magnitude * price / 10 ^ st.config.priceDecimals)).held trader
        baseAsset s.magnitude trader
        (attach (openInsert (attach st trader baseAsset s.magnitude) trader
          baseAsset s price (order_id (orderTypeOf s) trader price bh1 oh1)
          bh1 oh1) trader st.config.quoteAsset
          (s.magnitude * price / 10 ^ st.config.priceDecimals)).config.quoteAsset := by
      show s.magnitude * price / 10 ^ st.config.priceDecimals ≤
        subAt (addAt (addAt st.held trader baseAsset s.magnitude) trader
          st.config.quoteAsset
          (s.magnitude * price / 10 ^ st.config.priceDecimals)) trader
          baseAsset s.magnitude trader st.config.quoteAsset
      rw [subAt_apply, if_neg (fun hc => hbq hc.2.symm), addAt_apply,
        if_pos ⟨rfl, rfl⟩, addAt_apply, if_neg (fun hc => hbq hc.2.symm)]
      omega
    have hsetl := @settle_eq_ok (attach (openInsert (attach st trader
      baseAsset s.magnitude) trader baseAsset s price
      (order_id (orderTypeOf s) trader price bh1 oh1) bh1 oh1) trader
      st.config.quoteAsset
      (s.magnitude * price / 10 ^ st.config.priceDecimals)) trader trader
      baseAsset s.magnitude price h1 h2
    have hnolt : ¬ s.magnitude <
        (⟨s.magnitude, !s.negative⟩ : SignedAmount).magnitude := by
      show ¬ s.magnitude < s.magnitude
      omega
    simp only [openNet, hso, hbo, hsetl, if_neg hnolt] at hstep2
    rw [applyFill_remove (o := ⟨order_id (orderTypeOf s) trader price bh1 oh1,
      baseAsset, trader, price, s, bh1, oh1⟩) (q := s.magnitude)
      (Nat.le_refl s.magnitude)] at hstep2
    refine ⟨_, _, hstep1, hstep2, ?_, ?_, ?_, ?_⟩
    · show (if trader = (⟨order_id (orderTypeOf s) trader price bh1 oh1,
        baseAsset, trader, price, s, bh1, oh1⟩ : Order).owner then
        ((if trader = trader then st.index trader ++
          [order_id (orderTypeOf s) trader price bh1 oh1] else
          st.index trader)).filter (fun x => x ≠
          (⟨order_id (orderTypeOf s) trader price bh1 oh1, baseAsset, trader,
            price, s, bh1, oh1⟩ : Order).id)
        else _) = []
      rw [if_pos rfl, if_pos rfl, hidx]
      show ([order_id (orderTypeOf s) trader price bh1 oh1].filter
        (fun x => x ≠ order_id (orderTypeOf s) trader price bh1 oh1)) = []
      simp
    · show ((st.orders ++ ([⟨order_id (orderTypeOf s) trader price bh1 oh1,
        baseAsset, trader, price, s, bh1, oh1⟩] : List Order)).filter
        (fun p => p.id ≠ order_id (orderTypeOf s) trader price bh1 oh1)).find?
        (fun o => o.id = order_id (orderTypeOf s) trader price bh1 oh1) = none
      exact find?_id_filter_self
    · show addAt (addAt (subAt (subAt st.wallet trader baseAsset s.magnitude)
        trader st.config.quoteAsset
        (s.magnitude * price / 10 ^ st.config.priceDecimals)) trader baseAsset
        s.magnitude) trader st.config.quoteAsset
        (s.magnitude * price / 10 ^ (attach (openInsert (attach st trader
          baseAsset s.magnitude) trader baseAsset s price
          (order_id (orderTypeOf s) trader price bh1 oh1) bh1 oh1) trader
          st.config.quoteAsset
          (s.magnitude * price / 10 ^ st.config.priceDecimals)).config.priceDecimals)
        trader baseAsset = st.wallet trader baseAsset
      rw [addAt_apply, if_neg (fun hc => hbq hc.2), addAt_apply,
        if_pos ⟨rfl, rfl⟩, subAt_apply, if_neg (fun hc => hbq hc.2),
        subAt_apply, if_pos ⟨rfl, rfl⟩]
      omega
    · show addAt (addAt (subAt (subAt st.wallet trader baseAsset s.magnitude)
        trader st.config.quoteAsset
        (s.magnitude * price / 10 ^ st.config.priceDecimals)) trader baseAsset
        s.magnitude) trader st.config.quoteAsset
        (s.magnitude * price / 10 ^ (attach (openInsert (attach st trader
          baseAsset s.magnitude) trader baseAsset s price
          (order_id (orderTypeOf s) trader price bh1 oh1) bh1 oh1) trader
          st.config.quoteAsset
          (s.magnitude * price / 10 ^ st.config.priceDecimals)).config.priceDecimals)
        trader st.config.quoteAsset = st.wallet trader st.config.quoteAsset
      have hqnorm : s.magnitude * price / 10 ^ (attach (openInsert (attach st
          trader baseAsset s.magnitude) trader baseAsset s price
          (order_id (orderTypeOf s) trader price bh1 oh1) bh1 oh1) trader
          st.config.quoteAsset
          (s.magnitude * price / 10 ^ st.config.priceDecimals)).config.priceDecimals =
          s.magnitude * price / 10 ^ st.config.priceDecimals := rfl
      rw [hqnorm, addAt_apply, if_pos ⟨rfl, rfl⟩, addAt_apply,
        if_neg (fun hc => hbq hc.2.symm), subAt_apply, if_pos ⟨rfl, rfl⟩,
        subAt_apply, if_neg (fun hc => hbq hc.2.symm)]
      omega
  · have hnegf : s.negative = false := by
      cases hx : s.negative
      · rfl
      · exact absurd hx hneg
    have hrA1 : requiredAsset st.config baseAsset s = st.config.quoteAsset := by
      simp [requiredAsset, hnegf]
    have hrM1 : requiredAmount st.config s price =
        s.magnitude * price / 10 ^ st.config.priceDecimals := by
      simp [requiredAmount, hnegf]
    have hrA2 : requiredAsset st.config baseAsset ⟨s.magnitude, !s.negative⟩ =
        baseAsset := by
      simp [requiredAsset, hnegf]
    have hrM2 : requiredAmount st.config ⟨s.magnitude, !s.negative⟩ price =
        s.magnitude := by
      simp [requiredAmount, hnegf]
    rw [hrA1, hrM1] at hstep1 hw1
    rw [hrA2, hrM2] at hw2
    have hm2 : market_exists (openInsert (attach st trader
        st.config.quoteAsset
        (s.magnitude * price / 10 ^ st.config.priceDecimals)) trader baseAsset
        s price (order_id (orderTypeOf s) trader price bh1 oh1) bh1 oh1)
        baseAsset = true := hm
    have hz2 : ¬ (⟨s.magnitude, !s.negative⟩ : SignedAmount).magnitude = 0 := hz
    have hw2' : requiredAmount (openInsert (attach st trader
        st.config.quoteAsset
        (s.magnitude * price / 10 ^ st.config.priceDecimals)) trader baseAsset
        s price (order_id (orderTypeOf s) trader price bh1 oh1) bh1
        oh1).config ⟨s.magnitude, !s.negative⟩ price ≤
        (openInsert (attach st trader st.config.quoteAsset
          (s.magnitude * price / 10 ^ st.config.priceDecimals)) trader
          baseAsset s price (order_id (orderTypeOf s) trader price bh1 oh1)
          bh1 oh1).wallet trader
        (requiredAsset (openInsert (attach st trader st.config.quoteAsset
          (s.magnitude * price / 10 ^ st.config.priceDecimals)) trader
          baseAsset s price (order_id (orderTypeOf s) trader price bh1 oh1)
          bh1 oh1).config baseAsset ⟨s.magnitude, !s.negative⟩) := by
      show requiredAmount st.config ⟨s.magnitude, !s.negative⟩ price ≤
        subAt st.wallet trader st.config.quoteAsset
          (s.magnitude * price / 10 ^ st.config.priceDecimals) trader
          (requiredAsset st.config baseAsset ⟨s.magnitude, !s.negative⟩)
      rw [hrA2, hrM2, subAt_apply, if_neg (fun hc => hbq hc.2)]
      omega
    have hlook1 : order_by_id (openInsert (attach st trader
        st.config.quoteAsset
        (s.magnitude * price / 10 ^ st.config.priceDecimals)) trader baseAsset
        s price (order_id (orderTypeOf s) trader price bh1 oh1) bh1 oh1)
        (order_id (orderTypeOf s) trader price bh1 oh1) =
        some ⟨order_id (orderTypeOf s) trader price bh1 oh1, baseAsset, trader,
          price, s, bh1, oh1⟩ := by
      show (st.orders ++ ([⟨order_id (orderTypeOf s) trader price bh1 oh1,
        baseAsset, trader, price, s, bh1, oh1⟩] : List Order)).find?
        (fun p => p.id = order_id (orderTypeOf s) trader price bh1 oh1) =
        some ⟨order_id (orderTypeOf s) trader price bh1 oh1, baseAsset, trader,
          price, s, bh1, oh1⟩
      exact find?_id_append rfl hids1
    have hmg2 : order_by_id (openInsert (attach st trader
        st.config.quoteAsset
        (s.magnitude * price / 10 ^ st.config.priceDecimals)) trader baseAsset
        s price (order_id (orderTypeOf s) trader price bh1 oh1) bh1 oh1)
        (order_id (orderTypeOf ⟨s.magnitude, !s.negative⟩) trader price bh2
          oh2) = none := by
      apply List.find?_eq_none.mpr
      intro p hp
      rcases List.mem_append.1 hp with hp | hp
      · have := List.find?_eq_none.mp hids2 p hp
        simpa using this
      · simp only [List.mem_singleton] at hp
        subst hp
        simp only [decide_eq_true_eq]
        exact hidne
    have hidx1 : (openInsert (attach st trader st.config.quoteAsset
        (s.magnitude * price / 10 ^ st.config.priceDecimals)) trader baseAsset
        s price (order_id (orderTypeOf s) trader price bh1 oh1) bh1 oh1).index
        trader = [order_id (orderTypeOf s) trader price bh1 oh1] := by
      show (if trader = trader then st.index trader ++
        [order_id (orderTypeOf s) trader price bh1 oh1] else st.index trader) =
        [order_id (orderTypeOf s) trader price bh1 oh1]
      rw [if_pos rfl, hidx]
      rfl
    have hfc2 : findCounter (openInsert (attach st trader st.config.quoteAsset
        (s.magnitude * price / 10 ^ st.config.priceDecimals)) trader baseAsset
        s price (order_id (orderTypeOf s) trader price bh1 oh1) bh1 oh1) trader
        baseAsset price (⟨s.magnitude, !s.negative⟩ : SignedAmount).negative =
        some ⟨order_id (orderTypeOf s) trader price bh1 oh1, baseAsset, trader,
          price, s, bh1, oh1⟩ := by
      unfold findCounter
      rw [hidx1, List.findSome?_cons, hlook1]
      simp [hnegf]
    have hstep2 := open_order_eq_net hm2 hz2 hw2' hmg2 hfc2
    have hrA2' : requiredAsset (openInsert (attach st trader
        st.config.quoteAsset
        (s.magnitude * price / 10 ^ st.config.priceDecimals)) trader baseAsset
        s price (order_id (orderTypeOf s) trader price bh1 oh1) bh1 oh1).config
        baseAsset ⟨s.magnitude, !s.negative⟩ = baseAsset := hrA2
    have hrM2' : requiredAmount (openInsert (attach st trader
        st.config.quoteAsset
        (s.magnitude * price / 10 ^ st.config.priceDecimals)) trader baseAsset
        s price (order_id (orderTypeOf s) trader price bh1 oh1) bh1 oh1).config
        ⟨s.magnitude, !s.negative⟩ price = s.magnitude := hrM2
    rw [hrA2', hrM2'] at hstep2
    have hminq : min (⟨order_id (orderTypeOf s) trader price bh1 oh1,
        baseAsset, trader, price, s, bh1, oh1⟩ : Order).base_size.magnitude
        (⟨s.magnitude, !s.negative⟩ : SignedAmount).magnitude = s.magnitude := by
      show min s.magnitude s.magnitude = s.magnitude
      exact Nat.min_self _
    rw [hminq] at hstep2
    have hso : (if (⟨s.magnitude, !s.negative⟩ : SignedAmount).negative then
        trader else (⟨order_id (orderTypeOf s) trader price bh1 oh1, baseAsset,
        trader, price, s, bh1, oh1⟩ : Order).owner) = trader := by
      simp [hnegf]
    have hbo : (if (⟨s.magnitude, !s.negative⟩ : SignedAmount).negative then
        (⟨order_id (orderTypeOf s) trader price bh1 oh1, baseAsset, trader,
          price, s, bh1, oh1⟩ : Order).owner else trader) = trader := by
      simp [hnegf]
    have h1 : s.magnitude ≤ (attach (openInsert (attach st trader
        st.config.quoteAsset
        (s.magnitude * price / 10 ^ st.config.priceDecimals)) trader baseAsset
        s price (order_id (orderTypeOf s) trader price bh1 oh1) bh1 oh1) trader
        baseAsset s.magnitude).held trader baseAsset := by
      show s.magnitude ≤ addAt (addAt st.held trader st.config.quoteAsset
        (s.magnitude * price / 10 ^ st.config.priceDecimals)) trader baseAsset
        s.magnitude trader baseAsset
      rw [addAt_apply, if_pos ⟨rfl, rfl⟩, addAt_apply,
        if_neg (fun hc => hbq hc.2)]
      omega
    have h2 : s.magnitude * price / 10 ^ (attach (openInsert (attach st trader
        st.config.quoteAsset
        (s.magnitude * price / 10 ^ st.config.priceDecimals)) trader baseAsset
        s price (order_id (orderTypeOf s) trader price bh1 oh1) bh1 oh1) trader
        baseAsset s.magnitude).config.priceDecimals ≤
        subAt (attach (openInsert (attach st trader st.config.quoteAsset
          (s.magnitude * price / 10 ^ st.config.priceDecimals)) trader
          baseAsset s price (order_id (orderTypeOf s) trader price bh1 oh1)
          bh1 oh1) trader baseAsset s.magnitude).held trader baseAsset
        s.magnitude trader
        (attach (openInsert (attach st trader st.config.quoteAsset
          (s.magnitude * price / 10 ^ st.config.priceDecimals)) trader
          baseAsset s price (order_id (orderTypeOf s) trader price bh1 oh1)
          bh1 oh1) trader baseAsset s.magnitude).config.quoteAsset := by
      show s.magnitude * price / 10 ^ st.config.priceDecimals ≤
        subAt (addAt (addAt st.held trader st.config.quoteAsset
          (s.magnitude * price / 10 ^ st.config.priceDecimals)) trader
          baseAsset s.magnitude) trader baseAsset s.magnitude trader
          st.config.quoteAsset
      rw [subAt_apply, if_neg (fun hc => hbq hc.2.symm), addAt_apply,
        if_neg (fun hc => hbq hc.2.symm), addAt_apply, if_pos ⟨rfl, rfl⟩]
      omega
    have hsetl := @settle_eq_ok (attach (openInsert (attach st trader
      st.config.quoteAsset
      (s.magnitude * price / 10 ^ st.config.priceDecimals)) trader baseAsset
      s price (order_id (orderTypeOf s) trader price bh1 oh1) bh1 oh1) trader
      baseAsset s.magnitude) trader trader baseAsset s.magnitude price h1 h2
    have hnolt : ¬ s.magnitude <
        (⟨s.magnitude, !s.negative⟩ : SignedAmount).magnitude := by
      show ¬ s.magnitude < s.magnitude
      omega
    simp only [openNet, hso, hbo, hsetl, if_neg hnolt] at hstep2
    rw [applyFill_remove (o := ⟨order_id (orderTypeOf s) trader price bh1 oh1,
      baseAsset, trader, price, s, bh1, oh1⟩) (q := s.magnitude)
      (Nat.le_refl s.magnitude)] at hstep2
    refine ⟨_, _, hstep1, hstep2, ?_, ?_, ?_, ?_⟩
    · show (if trader = (⟨order_id (orderTypeOf s) trader price bh1 oh1,
        baseAsset, trader, price, s, bh1, oh1⟩ : Order).owner then
        ((if trader = trader then st.index trader ++
          [order_id (orderTypeOf s) trader price bh1 oh1] else
          st.index trader)).filter (fun x => x ≠
          (⟨order_id (orderTypeOf s) trader price bh1 oh1, baseAsset, trader,
            price, s, bh1, oh1⟩ : Order).id)
        else _) = []
      rw [if_pos rfl, if_pos rfl, hidx]
      show ([order_id (orderTypeOf s) trader price bh1 oh1].filter
        (fun x => x ≠ order_id (orderTypeOf s) trader price bh1 oh1)) = []
      simp
    · show ((st.orders ++ ([⟨order_id (orderTypeOf s) trader price bh1 oh1,
        baseAsset, trader, price, s, bh1, oh1⟩] : List Order)).filter
        (fun p => p.id ≠ order_id (orderTypeOf s) trader price bh1 oh1)).find?
        (fun o => o.id = order_id (orderTypeOf s) trader price bh1 oh1) = none
      exact find?_id_filter_self
    · show addAt (addAt (subAt (subAt st.wallet trader st.config.quoteAsset
        (s.magnitude * price / 10 ^ st.config.priceDecimals)) trader baseAsset
        s.magnitude) trader baseAsset s.magnitude) trader st.config.quoteAsset
        (s.magnitude * price / 10 ^ (attach (openInsert (attach st trader
          st.config.quoteAsset
          (s.magnitude * price / 10 ^ st.config.priceDecimals)) trader
          baseAsset s price (order_id (orderTypeOf s) trader price bh1 oh1)
          bh1 oh1) trader baseAsset s.magnitude).config.priceDecimals)
        trader baseAsset = st.wallet trader baseAsset
      rw [addAt_apply, if_neg (fun hc => hbq hc.2), addAt_apply,
        if_pos ⟨rfl, rfl⟩, subAt_apply, if_pos ⟨rfl, rfl⟩,
        subAt_apply, if_neg (fun hc => hbq hc.2)]
      omega
    · show addAt (addAt (subAt (subAt st.wallet trader st.config.quoteAsset
        (s.magnitude * price / 10 ^ st.config.priceDecimals)) trader baseAsset
        s.magnitude) trader baseAsset s.magnitude) trader st.config.quoteAsset
        (s.magnitude * price / 10 ^ (attach (openInsert (attach st trader
          st.config.quoteAsset
          (s.magnitude * price / 10 ^ st.config.priceDecimals)) trader
          baseAsset s price (order_id (orderTypeOf s) trader price bh1 oh1)
          bh1 oh1) trader baseAsset s.magnitude).config.priceDecimals)
        trader st.config.quoteAsset = st.wallet trader st.config.quoteAsset
      have hqnorm : s.magnitude * price / 10 ^ (attach (openInsert (attach st
          trader st.config.quoteAsset
          (s.magnitude * price / 10 ^ st.config.priceDecimals)) trader
          baseAsset s price (order_id (orderTypeOf s) trader price bh1 oh1)
          bh1 oh1) trader baseAsset s.magnitude).config.priceDecimals =
          s.magnitude * price / 10 ^ st.config.priceDecimals := rfl
      rw [hqnorm, addAt_apply, if_pos ⟨rfl, rfl⟩, addAt_apply,
        if_neg (fun hc => hbq hc.2.symm), subAt_apply,
        if_neg (fun hc => hbq hc.2.symm), subAt_apply, if_pos ⟨rfl, rfl⟩]
      omega

/-- Witness for C6: on an empty book, a sell of 5 at price 3 followed by the
reverse buy of 5 at the same price leaves no orders and restores both
external balances to 100. -/
theorem cancel_by_reverse_order_witness :
    (market_exists (testState [] (fun _ => []) (fun _ _ => 100) (fun _ _ => 0))
        2 = true ∧
      (testState [] (fun _ => []) (fun _ _ => 100) (fun _ _ => 0)).index
        (Identity.Address 0) = []) ∧
    (∃ st1 st2,
      open_order (testState [] (fun _ => []) (fun _ _ => 100) (fun _ _ => 0))
        (.Address 0) 2 ⟨5, true⟩ 3 10 1 = .ok st1 ∧
      open_order st1 (.Address 0) 2 ⟨5, !(true : Bool)⟩ 3 11 2 = .ok st2 ∧
      orders_by_trader st2 (.Address 0) = [] ∧
      order_by_id st2 (order_id (orderTypeOf ⟨5, true⟩) (.Address 0) 3 10 1) =
        none ∧
      st2.wallet (.Address 0) 2 = 100 ∧
      st2.wallet (.Address 0) 1 = 100) :=
  ⟨⟨by decide, rfl⟩,
    @cancel_by_reverse_order
      (testState [] (fun _ => []) (fun _ _ => 100) (fun _ _ => 0))
      (.Address 0) 2 ⟨5, true⟩ 3 10 1 11 2
      (by decide) (by decide) (by decide) rfl rfl rfl (by decide) (by decide)⟩

end Claims

end Orderbook
